import Mathlib

/-
Verification of the Express JSON-file CRUD API of this repository.

The development shallowly embeds:
 - utils/database.js      (namespace Db: readFile, writeFile, getAll, getById,
                           create, update, deleteRecord, search, filter, count)
 - utils/responseHandler.js (namespace Resp: success, error, paginated)
 - utils/validator.js     (validateRequired, validateId)
 - routes/productRoutes.js and routes/orderRoutes.js (one Lean function per
                           route handler, plus a dispatcher mirroring server.js)

JavaScript values are modelled by the inductive type `Value`; JavaScript
numbers are idealized as rationals with an explicit NaN constructor
(floating-point rounding and infinities are out of scope of the claims).
`new Date().toISOString()` is modelled by threading an explicit clock
string `now` through every operation that reads the clock.
The on-disk layer (strings plus JSON parse/stringify, with possible write
errors) is modelled separately from the parsed layer used by the routes.
-/

/-- JavaScript (JSON-compatible) runtime values.  `vnan` is the number NaN;
`undefined` is represented by `Option.none` at every lookup site. -/
inductive Value where
  | vnull : Value
  | vbool : Bool → Value
  | vnum  : ℚ → Value
  | vnan  : Value
  | vstr  : String → Value
  | varr  : List Value → Value
  | vobj  : List (String × Value) → Value
deriving Repr

namespace Value

/-- JavaScript truthiness: `undefined`, `null`, `false`, `0`, `NaN` and the
empty string are falsy, everything else is truthy. -/
def truthy : Value → Bool
  | vnull => false
  | vbool b => b
  | vnum q => decide (q ≠ 0)
  | vnan => false
  | vstr s => decide (s ≠ "")
  | varr _ => true
  | vobj _ => true

end Value

/-- Decimal digits of a natural number (used to render JS numbers). -/
def natRepr (n : Nat) : String := Nat.repr n

/-- Fractional decimal digits of r/d, up to `fuel` digits (JS prints a finite
decimal for every float; 20 digits are more than any float needs). -/
def fracDigits : Nat → Nat → Nat → String
  | 0, _, _ => ""
  | _, 0, _ => ""
  | fuel + 1, r, d =>
    let r10 := r * 10
    natRepr (r10 / d) ++ fracDigits fuel (r10 % d) d

/-- Rendering of a JS number as a string (JavaScript `String(n)`),
idealized over rationals. -/
def ratToString (q : ℚ) : String :=
  if q.den = 1 then (if q.num < 0 then "-" ++ natRepr q.num.natAbs else natRepr q.num.natAbs)
  else
    (if q < 0 then "-" else "") ++
      natRepr (q.num.natAbs / q.den) ++ "." ++ fracDigits 20 (q.num.natAbs % q.den) q.den

mutual

/-- JavaScript `String(v)` / `ToString`. -/
def jsToString : Value → String
  | .vnull => "null"
  | .vbool b => if b then "true" else "false"
  | .vnum q => ratToString q
  | .vnan => "NaN"
  | .vstr s => s
  | .varr xs => arrJoin xs
  | .vobj _ => "[object Object]"

/-- JavaScript `Array.prototype.toString` = `join(",")`, where `null` and
`undefined` elements render as the empty string. -/
def arrJoin : List Value → String
  | [] => ""
  | x :: xs =>
    (match x with
     | .vnull => ""
     | v => jsToString v) ++ (match xs with | [] => "" | _ => "," ++ arrJoin xs)

end

/-- Numeric value of a list of decimal digit characters. -/
def digitsToNat (ds : List Char) : Nat :=
  ds.foldl (fun a c => a * 10 + (c.toNat - 48)) 0

/-- One decimal literal `[+-]? (digits [. digits?] | . digits)`, returning the
value and the unconsumed rest (exponents and hex are outside the inputs the
claims touch and are not modelled). -/
def parseDec (cs : List Char) : Option (ℚ × List Char) :=
  let (sign, cs1) : ℚ × List Char :=
    match cs with
    | '-' :: r => (-1, r)
    | '+' :: r => (1, r)
    | _ => (1, cs)
  let (intd, cs2) := cs1.span (·.isDigit)
  match cs2 with
  | '.' :: r =>
    let (fracd, cs3) := r.span (·.isDigit)
    if intd.isEmpty && fracd.isEmpty then none
    else some (sign * ((digitsToNat intd : ℚ) + (digitsToNat fracd : ℚ) / (10 ^ fracd.length)), cs3)
  | _ => if intd.isEmpty then none else some (sign * (digitsToNat intd : ℚ), cs2)

/-- JavaScript `ToNumber` on a string: trimmed empty string is 0, otherwise
the whole string must be a numeric literal; `none` is NaN. -/
def strToNumber (s : String) : Option ℚ :=
  let t := s.trim
  if t = "" then some 0
  else
    match parseDec t.data with
    | some (q, []) => some q
    | _ => none

/-- JavaScript `parseFloat` on a string: longest numeric prefix after leading
whitespace; `none` is NaN. -/
def jsParseFloatStr (s : String) : Option ℚ :=
  match parseDec (s.data.dropWhile (·.isWhitespace)) with
  | some (q, _) => some q
  | none => none

/-- JavaScript `parseInt(s, 10)`: optional sign and longest digit prefix after
leading whitespace; `none` is NaN. -/
def jsParseIntStr (s : String) : Option Int :=
  let cs := s.data.dropWhile (·.isWhitespace)
  let (sign, cs1) : Int × List Char :=
    match cs with
    | '-' :: r => (-1, r)
    | '+' :: r => (1, r)
    | _ => (1, cs)
  let (ds, _) := cs1.span (·.isDigit)
  if ds.isEmpty then none else some (sign * (digitsToNat ds : Int))

/-- JavaScript `ToNumber`; `none` is NaN.  Arrays convert through their
string rendering, plain objects are NaN. -/
def jsToNumber : Value → Option ℚ
  | .vnull => some 0
  | .vbool b => some (if b then 1 else 0)
  | .vnum q => some q
  | .vnan => none
  | .vstr s => strToNumber s
  | .varr xs => strToNumber (jsToString (.varr xs))
  | .vobj _ => none

/-- Truncation toward zero, the integer JS `parseInt` extracts from a number. -/
def ratTrunc (q : ℚ) : Int :=
  if q < 0 then q.ceil else q.floor

/-- JavaScript `parseFloat(v)` on an arbitrary value (`ToString` then parse);
a number argument round-trips exactly. -/
def jsParseFloat : Value → Option ℚ
  | .vnum q => some q
  | v => jsParseFloatStr (jsToString v)

/-- JavaScript `parseInt(v, 10)` on an arbitrary value (`ToString` then
parse); a number argument truncates toward zero. -/
def jsParseInt : Value → Option Int
  | .vnum q => some (ratTrunc q)
  | v => jsParseIntStr (jsToString v)

/-- JavaScript strict equality `===` restricted to the values the routes
compare.  Distinct object/array literals are never reference-equal, so the
arr/obj cases are `false` (the routes only ever compare a freshly parsed
request value with a stored one). NaN is not equal to itself. -/
def jsStrictEq : Value → Value → Bool
  | .vnull, .vnull => true
  | .vbool a, .vbool b => a == b
  | .vnum a, .vnum b => decide (a = b)
  | .vstr a, .vstr b => a == b
  | _, _ => false

/-- Substring test, JavaScript `String.prototype.includes`. -/
def strIncludes (hay pat : String) : Bool :=
  (List.range (hay.data.length + 1)).any (fun i => pat.data.isPrefixOf (hay.data.drop i))

namespace Obj

/-- Field lookup on an object's field list (JS property read; `none` is
`undefined`). -/
def get (o : List (String × Value)) (k : String) : Option Value :=
  o.lookup k

/-- Property assignment: replaces the value in place when the key exists
(JS keeps the original insertion position), appends otherwise. -/
def set (o : List (String × Value)) (k : String) (v : Value) : List (String × Value) :=
  if (o.lookup k).isSome then o.map (fun p => if p.1 = k then (k, v) else p)
  else o ++ [(k, v)]

/-- Assignment of a possibly-undefined value.  Assigning `undefined` to a key
and then JSON-serializing the record is observationally the same as the key
being absent, which is how it is modelled here. -/
def setOpt (o : List (String × Value)) (k : String) : Option Value → List (String × Value)
  | some v => set o k v
  | none => o.filter (fun p => p.1 ≠ k)

/-- Object spread `{...a, ...b}`: fields of `b` assigned over `a` in order. -/
def mergeList (a b : List (String × Value)) : List (String × Value) :=
  b.foldl (fun acc p => set acc p.1 p.2) a

end Obj

namespace Value

/-- Property read `v.k` (JS: `undefined` on non-objects and missing keys). -/
def getF : Value → String → Option Value
  | vobj o, k => Obj.get o k
  | _, _ => none

/-- Fields spread out of a value.  Spreading a non-object contributes no
string-keyed fields on the values this API stores. -/
def fields : Value → List (String × Value)
  | vobj o => o
  | _ => []

end Value

/-
Parsed-layer file store.  The claims about the routes and the database
operations are stated at the level of parsed record arrays: a file system
maps a filename to the parsed array it holds (`none` = the file does not
exist).  The string/JSON layer, including read and write failures, is
modelled separately below for the claims about readFile/writeFile itself;
at this layer writes succeed, which is the regime all route-level claims
describe.
-/
def FS : Type := String → Option (List Value)

namespace Db

/-- The single file name this database layer ever touches for one call:
utils/database.js `readFile` — missing file, empty file and parse errors all
yield the empty array (the error cases are modelled at the disk layer; at the
parsed layer a missing file is the only non-array case). -/
def readFile (fs : FS) (filename : String) : List Value :=
  (fs filename).getD []

/-- utils/database.js `writeFile`: serializes the whole array to the single
named file. -/
def writeFile (fs : FS) (filename : String) (data : List Value) : FS :=
  fun n => if n = filename then some data else fs n

/-- utils/database.js `getAll`. -/
def getAll (fs : FS) (filename : String) : List Value :=
  readFile fs filename

/-- The predicate `item.id === parseInt(id)` used by getById, update and
deleteRecord.  `parseInt` of a non-numeric id is NaN, which is strictly
equal to nothing. -/
def matchId (id : String) (item : Value) : Bool :=
  match jsParseIntStr id with
  | some n =>
    match item.getF "id" with
    | some v => jsStrictEq v (.vnum n)
    | none => false
  | none => false

/-- utils/database.js `getById` (`|| null` becomes `Option`). -/
def getById (fs : FS) (filename : String) (id : String) : Option Value :=
  (readFile fs filename).find? (matchId id)

/-- The `item.id || 0` step of create's id computation. -/
def idOrZero (item : Value) : Value :=
  match item.getF "id" with
  | some v => if v.truthy then v else .vnum 0
  | none => .vnum 0

/-- `Math.max(...)` over already-converted arguments; any NaN argument makes
the result NaN.  Only called on non-empty lists by `create`. -/
def jsMaxList : List (Option ℚ) → Option ℚ
  | [] => none
  | x :: xs => xs.foldl (fun acc y =>
      match acc, y with
      | some a, some b => some (max a b)
      | _, _ => none) x

/-- The record `create` builds from the data it read:
`{ id, ...newRecord, createdAt, updatedAt }` with
`id = data.length > 0 ? Math.max(...data.map(item => item.id || 0)) + 1 : 1`.
A spread field named `id` in `newRecord` lands after the generated `id` and
therefore overrides it. -/
def mkRecord (data : List Value) (newRecord : List (String × Value)) (now : String) : Value :=
  let idVal : Value :=
    if data.length > 0 then
      match jsMaxList (data.map (fun item => jsToNumber (idOrZero item))) with
      | some m => .vnum (m + 1)
      | none => .vnan
    else .vnum 1
  .vobj (Obj.set (Obj.set (Obj.mergeList [("id", idVal)] newRecord)
            "createdAt" (.vstr now)) "updatedAt" (.vstr now))

/-- utils/database.js `create`: read the whole file, build the record, append
it and write the whole updated array back. -/
def create (fs : FS) (filename : String) (newRecord : List (String × Value))
    (now : String) : Value × FS :=
  let data := readFile fs filename
  let record := mkRecord data newRecord now
  (record, writeFile fs filename (data ++ [record]))

/-- utils/database.js `update`: `{...data[index], ...updateData, id: old id,
createdAt: old createdAt, updatedAt: now}` at the found index; `null` and no
write when the id is not found. -/
def update (fs : FS) (filename : String) (id : String)
    (updateData : List (String × Value)) (now : String) : Option Value × FS :=
  let data := readFile fs filename
  match data.findIdx? (matchId id) with
  | none => (none, fs)
  | some index =>
    let old := (data.get? index).getD .vnull
    let merged := Obj.set
      (Obj.setOpt (Obj.setOpt (Obj.mergeList old.fields updateData)
          "id" (old.getF "id")) "createdAt" (old.getF "createdAt"))
      "updatedAt" (.vstr now)
    let rec' := Value.vobj merged
    (some rec', writeFile fs filename (data.set index rec'))

/-- utils/database.js `deleteRecord`: keep `item.id !== parseInt(id)`; when
nothing was removed return false without writing. -/
def deleteRecord (fs : FS) (filename : String) (id : String) : Bool × FS :=
  let data := readFile fs filename
  let filteredData := data.filter (fun item => !(matchId id item))
  if filteredData.length = data.length then (false, fs)
  else (true, writeFile fs filename filteredData)

/-- utils/database.js `search`: case-insensitive containment of
`String(value)` in `String(item[field])`, absent and null fields reading as
the empty string. -/
def search (fs : FS) (filename field : String) (value : Value) : List Value :=
  (readFile fs filename).filter (fun item =>
    let fieldValue :=
      match item.getF field with
      | none => ""
      | some .vnull => ""
      | some v => jsToString v
    strIncludes fieldValue.toLower (jsToString value).toLower)

/-- utils/database.js `filter`. -/
def filter (fs : FS) (filename : String) (filterFn : Value → Bool) : List Value :=
  (readFile fs filename).filter filterFn

/-- utils/database.js `count`. -/
def count (fs : FS) (filename : String) : Nat :=
  (readFile fs filename).length

end Db

namespace Resp

/-- utils/responseHandler.js `success`: the JSON body sent on success. -/
def success (data : Value) (message : String) (statusCode : ℚ) (now : String) : Value :=
  .vobj [("status", .vbool true), ("statusCode", .vnum statusCode),
         ("message", .vstr message), ("data", data), ("timestamp", .vstr now)]

/-- utils/responseHandler.js `error`: `details` is included only when truthy
(the routes always call this with the default `null` details). -/
def error (message : String) (statusCode : ℚ) (details : Value) (now : String) : Value :=
  .vobj ([("status", .vbool false), ("statusCode", .vnum statusCode),
          ("message", .vstr message)] ++
         (if details.truthy then [("details", details)] else []) ++
         [("timestamp", .vstr now)])

/-- utils/responseHandler.js `paginated`. -/
def paginated (data : List Value) (page limit : Int) (total : Nat) (now : String) : Value :=
  let totalPages : Int := ((total : ℚ) / (limit : ℚ)).ceil
  .vobj [("status", .vbool true), ("statusCode", .vnum 200),
         ("data", .varr data),
         ("pagination", .vobj
            [("page", .vnum page), ("limit", .vnum limit), ("total", .vnum total),
             ("totalPages", .vnum totalPages),
             ("hasNext", .vbool (decide (page < totalPages))),
             ("hasPrev", .vbool (decide (page > 1)))]),
         ("timestamp", .vstr now)]

end Resp

/-- utils/validator.js `validateRequired`: `some body` is the early 400
response (its raw JSON body carries no timestamp), `none` means `next()`.
A field is missing when undefined, null, or a string that trims to empty. -/
def validateRequired (requiredFields : List String)
    (body : List (String × Value)) : Option Value :=
  let missing := requiredFields.filter (fun field =>
    match Obj.get body field with
    | none => true
    | some .vnull => true
    | some (.vstr s) => s.trim = ""
    | some _ => false)
  if missing.length > 0 then
    some (.vobj [("status", .vbool false), ("statusCode", .vnum 400),
                 ("message", .vstr "Validation Error"),
                 ("details", .vstr ("Missing required fields: " ++
                    String.intercalate ", " missing))])
  else none

/-- utils/validator.js `validateId` on the route's id parameter:
`id === undefined || isNaN(id) || parseInt(id) <= 0` (when `parseInt` is NaN
the comparison with 0 is false, as in JS). -/
def validateId (id : Option String) : Option Value :=
  let bad :=
    match id with
    | none => true
    | some s =>
      (strToNumber s).isNone ||
        (match jsParseIntStr s with
         | some n => decide (n ≤ 0)
         | none => false)
  if bad then
    some (.vobj [("status", .vbool false), ("statusCode", .vnum 400),
                 ("message", .vstr "Invalid ID format")])
  else none

/-- Opening brace character (written via its code point to keep string
contents plain). -/
def lbrace : Char := Char.ofNat 123

/-- Closing brace character. -/
def rbrace : Char := Char.ofNat 125

/-- JSON whitespace. -/
def jsonWs (c : Char) : Bool :=
  c = ' ' || c = '\t' || c = '\n' || c = '\r'

/-- Value of a hexadecimal digit. -/
def hexVal (c : Char) : Option Nat :=
  if c.isDigit then some (c.toNat - 48)
  else if 'a' ≤ c && c ≤ 'f' then some (c.toNat - 87)
  else if 'A' ≤ c && c ≤ 'F' then some (c.toNat - 55)
  else none

/-- Body of a JSON string literal after the opening quote, with the standard
escapes. -/
def parseJsonString : Nat → List Char → Option (String × List Char)
  | 0, _ => none
  | _, [] => none
  | fuel + 1, c :: rest =>
    if c = '"' then some ("", rest)
    else if c = '\\' then
      match rest with
      | [] => none
      | e :: rest2 =>
        let dec : Option (Char × List Char) :=
          if e = '"' then some ('"', rest2)
          else if e = '\\' then some ('\\', rest2)
          else if e = '/' then some ('/', rest2)
          else if e = 'b' then some (Char.ofNat 8, rest2)
          else if e = 'f' then some (Char.ofNat 12, rest2)
          else if e = 'n' then some ('\n', rest2)
          else if e = 'r' then some ('\r', rest2)
          else if e = 't' then some ('\t', rest2)
          else if e = 'u' then
            match rest2 with
            | h1 :: h2 :: h3 :: h4 :: rest3 =>
              match hexVal h1, hexVal h2, hexVal h3, hexVal h4 with
              | some a, some b, some c3, some d =>
                some (Char.ofNat (((a * 16 + b) * 16 + c3) * 16 + d), rest3)
              | _, _, _, _ => none
            | _ => none
          else none
        match dec with
        | some (ch, rest') =>
          match parseJsonString fuel rest' with
          | some (s, rest'') => some (String.mk (ch :: s.data), rest'')
          | none => none
        | none => none
    else
      match parseJsonString fuel rest with
      | some (s, rest') => some (String.mk (c :: s.data), rest')
      | none => none

/-- A JSON number literal: `-? (0 | [1-9][0-9]*) (. [0-9]+)? ([eE][+-]?[0-9]+)?`. -/
def parseJsonNumber (cs : List Char) : Option (ℚ × List Char) :=
  let (sign, cs1) : ℚ × List Char :=
    match cs with
    | '-' :: r => (-1, r)
    | _ => (1, cs)
  let (intd, cs2) := cs1.span (·.isDigit)
  let okInt : Bool :=
    match intd with
    | [] => false
    | ['0'] => true
    | d :: _ => d ≠ '0'
  if !okInt then none
  else
    let (frac, cs3) : ℚ × List Char :=
      match cs2 with
      | '.' :: r =>
        let (fd, r2) := r.span (·.isDigit)
        if fd.isEmpty then (0, cs2) else ((digitsToNat fd : ℚ) / (10 ^ fd.length), r2)
      | _ => (0, cs2)
    let base : ℚ := (digitsToNat intd : ℚ) + frac
    match cs3 with
    | e :: r =>
      if e = 'e' || e = 'E' then
        let (esign, r1) : Bool × List Char :=
          match r with
          | '-' :: r' => (true, r')
          | '+' :: r' => (false, r')
          | _ => (false, r)
        let (ed, r2) := r1.span (·.isDigit)
        if ed.isEmpty then some (sign * base, cs3)
        else
          let ex : ℚ := 10 ^ digitsToNat ed
          some (sign * base * (if esign then 1 / ex else ex), r2)
      else some (sign * base, cs3)
    | [] => some (sign * base, cs3)

mutual

/-- One JSON value (leading whitespace already skipped). -/
def parseJsonVal : Nat → List Char → Option (Value × List Char)
  | 0, _ => none
  | _, [] => none
  | fuel + 1, c :: rest =>
    if c = '"' then
      match parseJsonString (fuel + 1) rest with
      | some (s, r) => some (.vstr s, r)
      | none => none
    else if c = '[' then
      let r := (rest.dropWhile jsonWs)
      match r with
      | ']' :: r2 => some (.varr [], r2)
      | _ =>
        match parseJsonItems fuel r with
        | some (xs, r2) => some (.varr xs, r2)
        | none => none
    else if c = lbrace then
      let r := (rest.dropWhile jsonWs)
      match r with
      | x :: r2 =>
        if x = rbrace then some (.vobj [], r2)
        else
          match parseJsonMembers fuel (x :: r2) with
          | some (o, r3) =>
            some (.vobj (o.foldl (fun acc p => Obj.set acc p.1 p.2) []), r3)
          | none => none
      | [] => none
    else if c = 't' then
      match rest with
      | 'r' :: 'u' :: 'e' :: r => some (.vbool true, r)
      | _ => none
    else if c = 'f' then
      match rest with
      | 'a' :: 'l' :: 's' :: 'e' :: r => some (.vbool false, r)
      | _ => none
    else if c = 'n' then
      match rest with
      | 'u' :: 'l' :: 'l' :: r => some (.vnull, r)
      | _ => none
    else
      match parseJsonNumber (c :: rest) with
      | some (q, r) => some (.vnum q, r)
      | none => none

/-- Comma-separated array items up to the closing bracket. -/
def parseJsonItems : Nat → List Char → Option (List Value × List Char)
  | 0, _ => none
  | fuel + 1, cs =>
    match parseJsonVal fuel cs with
    | some (v, r) =>
      match r.dropWhile jsonWs with
      | ']' :: r2 => some ([v], r2)
      | ',' :: r2 =>
        match parseJsonItems fuel (r2.dropWhile jsonWs) with
        | some (vs, r3) => some (v :: vs, r3)
        | none => none
      | _ => none
    | none => none

/-- Comma-separated object members, in source order, up to the closing brace
(the caller folds them into an object so a repeated key keeps the last
occurrence, as JSON.parse does). -/
def parseJsonMembers : Nat → List Char → Option (List (String × Value) × List Char)
  | 0, _ => none
  | fuel + 1, cs =>
    match cs with
    | '"' :: r =>
      match parseJsonString fuel r with
      | some (k, r2) =>
        match r2.dropWhile jsonWs with
        | ':' :: r3 =>
          match parseJsonVal fuel (r3.dropWhile jsonWs) with
          | some (v, r4) =>
            match r4.dropWhile jsonWs with
            | x :: r5 =>
              if x = rbrace then some ([(k, v)], r5)
              else if x = ',' then
                match parseJsonMembers fuel (r5.dropWhile jsonWs) with
                | some (o, r6) => some ((k, v) :: o, r6)
                | none => none
              else none
            | [] => none
          | none => none
        | _ => none
      | none => none
    | _ => none

end

/-- JavaScript `JSON.parse`: the whole string must be one JSON value
surrounded by whitespace; `none` models the thrown SyntaxError. -/
def jsonParse (s : String) : Option Value :=
  match parseJsonVal (s.data.length + 1) (s.data.dropWhile jsonWs) with
  | some (v, rest) => if (rest.dropWhile jsonWs).isEmpty then some v else none
  | none => none

/-- Escaping of one character inside a JSON string literal. -/
def jsonEscChar (c : Char) : String :=
  if c = '"' then "\\\""
  else if c = '\\' then "\\\\"
  else if c = '\n' then "\\n"
  else if c = '\r' then "\\r"
  else if c = '\t' then "\\t"
  else String.mk [c]

/-- A JSON string literal. -/
def jsonQuote (s : String) : String :=
  "\"" ++ String.join (s.data.map jsonEscChar) ++ "\""

/-- Repeated spaces for `JSON.stringify(data, null, 2)` indentation. -/
def spaces (n : Nat) : String := String.mk (List.replicate n ' ')

mutual

/-- JavaScript `JSON.stringify(v, null, 2)` at a given indentation depth. -/
def stringifyVal : Value → Nat → String
  | .vnull, _ => "null"
  | .vbool b, _ => if b then "true" else "false"
  | .vnum q, _ => ratToString q
  | .vnan, _ => "null"
  | .vstr s, _ => jsonQuote s
  | .varr [], _ => "[]"
  | .varr (x :: xs), ind =>
    "[\n" ++ stringifyItems (x :: xs) (ind + 2) ++ "\n" ++ spaces ind ++ "]"
  | .vobj [], _ => String.mk [lbrace, rbrace]
  | .vobj (p :: ps), ind =>
    String.mk [lbrace] ++ "\n" ++ stringifyMembers (p :: ps) (ind + 2) ++ "\n" ++
      spaces ind ++ String.mk [rbrace]

/-- Array elements, one per line. -/
def stringifyItems : List Value → Nat → String
  | [], _ => ""
  | [x], ind => spaces ind ++ stringifyVal x ind
  | x :: y :: xs, ind =>
    spaces ind ++ stringifyVal x ind ++ ",\n" ++ stringifyItems (y :: xs) ind

/-- Object members, one per line. -/
def stringifyMembers : List (String × Value) → Nat → String
  | [], _ => ""
  | [(k, v)], ind => spaces ind ++ jsonQuote k ++ ": " ++ stringifyVal v ind
  | (k, v) :: q :: ps, ind =>
    spaces ind ++ jsonQuote k ++ ": " ++ stringifyVal v ind ++ ",\n" ++
      stringifyMembers (q :: ps) ind

end

/-- JavaScript `JSON.stringify(data, null, 2)` as called by writeFile. -/
def jsonStringify (v : Value) : String := stringifyVal v 0

/-
Disk layer: the db directory as it exists on disk.  `files` maps a filename
to its text (`none` = the file does not exist); `badWrites` marks filenames
whose `fs.writeFileSync` raises (permissions, full disk, ...), the case the
try/catch of utils/database.js `writeFile` absorbs.
-/
structure Disk where
  files : String → Option String
  badWrites : String → Bool

/-- utils/database.js `readFile`, disk level: a missing file, an empty file,
and a JSON.parse error all yield `[]` through the existsSync check, the
falsy-data check and the try/catch; otherwise the parsed contents are
returned unchanged. -/
def diskReadFile (d : Disk) (filename : String) : Value :=
  match d.files filename with
  | none => .varr []
  | some data =>
    if data = "" then .varr []
    else
      match jsonParse data with
      | some v => v
      | none => .varr []

/-- utils/database.js `writeFile`, disk level: returns `true` after a
successful whole-file write and `false` when writeFileSync raises, the
exception being absorbed by the try/catch. -/
def diskWriteFile (d : Disk) (filename : String) (data : Value) : Bool × Disk :=
  if d.badWrites filename then (false, d)
  else
    (true,
     { d with files := fun n => if n = filename then some (jsonStringify data) else d.files n })

/-- An HTTP response as the route handlers produce it: the status the route
sets (`res.status(...)`, default 200) and the JSON body. -/
structure Response where
  status : Nat
  body : Value
deriving Repr

/-- JavaScript `isNaN(x)` on a possibly-undefined value
(`isNaN(undefined)` is true). -/
def jsIsNaNOpt : Option Value → Bool
  | none => true
  | some v => (jsToNumber v).isNone

/-- JavaScript `x < 0` on a possibly-undefined value (comparisons involving
NaN or `undefined` are false). -/
def numLtZero : Option Value → Bool
  | none => false
  | some v =>
    match jsToNumber v with
    | some q => decide (q < 0)
    | none => false

/-- JavaScript `x <= 0` on a possibly-undefined value. -/
def numLeZero : Option Value → Bool
  | none => false
  | some v =>
    match jsToNumber v with
    | some q => decide (q ≤ 0)
    | none => false

/-- JavaScript `x || d` on a possibly-undefined value. -/
def orDefault (v : Option Value) (d : Value) : Value :=
  match v with
  | some x => if x.truthy then x else d
  | none => d

/-- JavaScript `(x || '').toLowerCase()` on a possibly-undefined value;
`none` models the TypeError thrown when the value is truthy but has no
`toLowerCase` method. -/
def orEmptyLower (v : Option Value) : Option String :=
  match orDefault v (.vstr "") with
  | .vstr s => some s.toLower
  | _ => none

/-- JavaScript `String(x || '').toLowerCase()` (never throws). -/
def strLowerOf (v : Option Value) : String :=
  (jsToString (orDefault v (.vstr ""))).toLower

/-- JavaScript `parseFloat(x)` as a value (NaN when it fails, also on
`undefined`). -/
def parseFloatVal (v : Option Value) : Value :=
  match v with
  | some x =>
    match jsParseFloat x with
    | some q => .vnum q
    | none => .vnan
  | none => .vnan

/-- JavaScript `parseInt(x, 10)` as a value. -/
def parseIntVal (v : Option Value) : Value :=
  match v with
  | some x =>
    match jsParseInt x with
    | some n => .vnum n
    | none => .vnan
  | none => .vnan

/-- JavaScript `a === b` where either side may be undefined. -/
def strictEqOpt : Option Value → Option Value → Bool
  | some a, some b => jsStrictEq a b
  | none, none => true
  | _, _ => false

/-- Object literal construction where a key whose value is `undefined` is
dropped: such a key is invisible both in the JSON response and in the
serialized file, which is how the model represents it. -/
def objLit (fields : List (String × Option Value)) : List (String × Value) :=
  fields.foldl (fun acc p =>
    match p.2 with
    | some v => Obj.set acc p.1 v
    | none => acc) []

/-- Query parameter read with `parseInt(value, 10) || default`. -/
def qInt (query : List (String × String)) (key : String) (dflt : Int) : Int :=
  match query.lookup key with
  | none => dflt
  | some s =>
    match jsParseIntStr s with
    | some n => if n = 0 then dflt else n
    | none => dflt

/-- Stable insertion of one element (used to model the stable Array sort). -/
def insertLe (le : α → α → Bool) (x : α) : List α → List α
  | [] => [x]
  | y :: ys => if le x y then x :: y :: ys else y :: insertLe le x ys

/-- Stable sort by a boolean `le`, modelling `Array.prototype.sort` with a
numeric comparator. -/
def sortBy (le : α → α → Bool) : List α → List α
  | [] => []
  | x :: xs => insertLe le x (sortBy le xs)

/-- JavaScript `Array.prototype.slice(s, e)` with possibly negative bounds. -/
def jsSlice (l : List α) (s e : Int) : List α :=
  let len : Int := l.length
  let norm : Int → Nat := fun i => (if i < 0 then max (len + i) 0 else min i len).toNat
  let ns := norm s
  let ne := norm e
  (l.drop ns).take (ne - ns)

/-- Shared early-return shape of `validateId` as used by the routers. -/
def withValidateId (id : String) (fs : FS) (k : Unit → Response × FS) : Response × FS :=
  match validateId (some id) with
  | some err => ({ status := 400, body := err }, fs)
  | none => k ()

/-- The sort key `parseFloat(p.price) || 0` of the product list route. -/
def priceKey (p : Value) : ℚ :=
  match p.getF "price" with
  | none => 0
  | some v => (jsParseFloat v).getD 0

/-- The sort key `String(p.name || '')` of the product list route
(localeCompare modelled as lexicographic comparison). -/
def nameKey (p : Value) : String :=
  jsToString (orDefault (p.getF "name") (.vstr ""))

/-- routes/productRoutes.js `GET /`: category filter, price range filter,
sort, paginate.  The 500 branch is the route's try/catch firing on the
TypeError of `(p.category || '').toLowerCase()` for a truthy non-string
category. -/
def productsList (fs : FS) (query : List (String × String)) (now : String) :
    Response × FS :=
  let category := query.lookup "category"
  let minPrice := query.lookup "minPrice"
  let maxPrice := query.lookup "maxPrice"
  let sort := (query.lookup "sort").getD "name"
  let page := qInt query "page" 1
  let limit := qInt query "limit" 10
  let products0 := Db.getAll fs "products.json"
  let catT := category.any (fun c => c ≠ "")
  if catT && products0.any (fun p => (orEmptyLower (p.getF "category")).isNone) then
    ({ status := 500, body := Resp.error "Failed to fetch products" 500 .vnull now }, fs)
  else
    let cat := (category.getD "").toLower
    let products1 :=
      if catT then products0.filter (fun p => (orEmptyLower (p.getF "category")).getD "" = cat)
      else products0
    let minT := minPrice.any (fun s => s ≠ "")
    let maxT := maxPrice.any (fun s => s ≠ "")
    let products2 :=
      if minT || maxT then
        let minCheck : ℚ → Bool :=
          if minT then
            match jsParseFloatStr (minPrice.getD "") with
            | some m => fun price => decide (m ≤ price)
            | none => fun _ => false
          else fun price => decide ((0 : ℚ) ≤ price)
        let maxCheck : ℚ → Bool :=
          if maxT then
            match jsParseFloatStr (maxPrice.getD "") with
            | some m => fun price => decide (price ≤ m)
            | none => fun _ => false
          else fun _ => true
        products1.filter (fun p => minCheck (priceKey p) && maxCheck (priceKey p))
      else products1
    let products3 :=
      if sort = "price-asc" then sortBy (fun a b => decide (priceKey a ≤ priceKey b)) products2
      else if sort = "price-desc" then sortBy (fun a b => decide (priceKey b ≤ priceKey a)) products2
      else sortBy (fun a b => !(decide (nameKey b < nameKey a))) products2
    let total := products3.length
    let start : Int := (page - 1) * limit
    let paginatedProducts := jsSlice products3 start (start + limit)
    ({ status := 200, body := Resp.paginated paginatedProducts page limit total now }, fs)

/-- routes/productRoutes.js `GET /:id` (after validateId). -/
def productsGetById (fs : FS) (id : String) (now : String) : Response × FS :=
  match Db.getById fs "products.json" id with
  | none => ({ status := 404, body := Resp.error "Product not found" 404 .vnull now }, fs)
  | some product =>
    ({ status := 200, body := Resp.success product "Product fetched successfully" 200 now }, fs)

/-- routes/productRoutes.js `POST /`: validateRequired middleware, then the
inline price/stock check, then `db.create`. -/
def productsPost (fs : FS) (body : List (String × Value)) (now : String) :
    Response × FS :=
  match validateRequired ["name", "price", "category", "stock"] body with
  | some err => ({ status := 400, body := err }, fs)
  | none =>
    let price := Obj.get body "price"
    let stock := Obj.get body "stock"
    if jsIsNaNOpt price || numLtZero price || jsIsNaNOpt stock || numLtZero stock then
      ({ status := 400,
         body := Resp.error "Price and stock must be positive numbers" 400 .vnull now }, fs)
    else
      let newProduct := objLit
        [("name", Obj.get body "name"),
         ("price", some (parseFloatVal price)),
         ("category", Obj.get body "category"),
         ("stock", some (parseIntVal stock)),
         ("description", some (orDefault (Obj.get body "description") (.vstr ""))),
         ("image", some (orDefault (Obj.get body "image") (.vstr ""))),
         ("inStock", some (.vbool (match parseIntVal stock with
                                   | .vnum n => decide (n > 0)
                                   | _ => false)))]
      let created := Db.create fs "products.json" newProduct now
      ({ status := 201,
         body := Resp.success created.1 "Product created successfully" 201 now }, created.2)

/-- routes/productRoutes.js `PUT /:id` (after validateId): recomputes
`inStock` and coerces `stock`/`price` when present, then `db.update`. -/
def productsPut (fs : FS) (id : String) (body : List (String × Value)) (now : String) :
    Response × FS :=
  match Db.getById fs "products.json" id with
  | none => ({ status := 404, body := Resp.error "Product not found" 404 .vnull now }, fs)
  | some _ =>
    let upd0 := body
    let upd1 :=
      match Obj.get body "stock" with
      | some sv =>
        Obj.set (Obj.set upd0 "inStock" (.vbool (match jsParseInt sv with
                                                | some n => decide (n > 0)
                                                | none => false)))
          "stock" (parseIntVal (some sv))
      | none => upd0
    let upd2 :=
      match Obj.get body "price" with
      | some pv => Obj.set upd1 "price" (parseFloatVal (some pv))
      | none => upd1
    let updated := Db.update fs "products.json" id upd2 now
    ({ status := 200,
       body := Resp.success ((updated.1).getD .vnull) "Product updated successfully" 200 now },
     updated.2)

/-- routes/productRoutes.js `PATCH /:id` (after validateId). -/
def productsPatch (fs : FS) (id : String) (body : List (String × Value)) (now : String) :
    Response × FS :=
  match Db.getById fs "products.json" id with
  | none => ({ status := 404, body := Resp.error "Product not found" 404 .vnull now }, fs)
  | some _ =>
    let updated := Db.update fs "products.json" id body now
    ({ status := 200,
       body := Resp.success ((updated.1).getD .vnull) "Product partially updated" 200 now },
     updated.2)

/-- routes/productRoutes.js `DELETE /:id` (after validateId). -/
def productsDelete (fs : FS) (id : String) (now : String) : Response × FS :=
  match Db.getById fs "products.json" id with
  | none => ({ status := 404, body := Resp.error "Product not found" 404 .vnull now }, fs)
  | some _ =>
    let deleted := Db.deleteRecord fs "products.json" id
    ({ status := 200,
       body := Resp.success .vnull "Product deleted successfully" 200 now }, deleted.2)

/-- routes/productRoutes.js `GET /stock/low`. -/
def productsLowStock (fs : FS) (query : List (String × String)) (now : String) :
    Response × FS :=
  let threshold := qInt query "threshold" 5
  let lowStockProducts := Db.filter fs "products.json" (fun product =>
    decide ((match product.getF "stock" with
             | some v => (jsParseInt v).getD 0
             | none => 0) ≤ threshold))
  ({ status := 200,
     body := Resp.success (.varr lowStockProducts) "Low stock products fetched" 200 now }, fs)

/-- routes/productRoutes.js `GET /category/:category`: the filter calls
`p.category.toLowerCase()` unguarded, so a missing or non-string category on
any stored product throws and the try/catch answers 500. -/
def productsByCategory (fs : FS) (category : String) (now : String) : Response × FS :=
  let data := Db.readFile fs "products.json"
  if data.all (fun p => match p.getF "category" with | some (.vstr _) => true | _ => false) then
    let products := data.filter (fun p =>
      match p.getF "category" with
      | some (.vstr s) => s.toLower = category.toLower
      | _ => false)
    if products.length = 0 then
      ({ status := 404,
         body := Resp.error "No products found in this category" 404 .vnull now }, fs)
    else
      ({ status := 200,
         body := Resp.success (.varr products) "Products by category fetched" 200 now }, fs)
  else
    ({ status := 500,
       body := Resp.error "Failed to fetch products by category" 500 .vnull now }, fs)

/-- routes/orderRoutes.js `GET /`: userId filter, status filter, paginate. -/
def ordersList (fs : FS) (query : List (String × String)) (now : String) :
    Response × FS :=
  let userId := query.lookup "userId"
  let status := query.lookup "status"
  let page := qInt query "page" 1
  let limit := qInt query "limit" 10
  let orders0 := Db.getAll fs "orders.json"
  let orders1 :=
    if userId.any (fun s => s ≠ "") then
      match jsParseIntStr (userId.getD "") with
      | some n => orders0.filter (fun o =>
          match o.getF "userId" with
          | some v => jsStrictEq v (.vnum n)
          | none => false)
      | none => orders0.filter (fun _ => false)
    else orders0
  let orders2 :=
    if status.any (fun s => s ≠ "") then
      let s := (status.getD "").toLower
      orders1.filter (fun o => strLowerOf (o.getF "status") = s)
    else orders1
  let total := orders2.length
  let start : Int := (page - 1) * limit
  let paginatedOrders := jsSlice orders2 start (start + limit)
  ({ status := 200, body := Resp.paginated paginatedOrders page limit total now }, fs)

/-- routes/orderRoutes.js `GET /:id` (after validateId). -/
def ordersGetById (fs : FS) (id : String) (now : String) : Response × FS :=
  match Db.getById fs "orders.json" id with
  | none => ({ status := 404, body := Resp.error "Order not found" 404 .vnull now }, fs)
  | some order =>
    ({ status := 200, body := Resp.success order "Order fetched successfully" 200 now }, fs)

/-- routes/orderRoutes.js `POST /`: validateRequired middleware, the items
array check, the totalAmount check, then `db.create` with status pending. -/
def ordersPost (fs : FS) (body : List (String × Value)) (now : String) :
    Response × FS :=
  match validateRequired ["userId", "items", "totalAmount"] body with
  | some err => ({ status := 400, body := err }, fs)
  | none =>
    let items := Obj.get body "items"
    let totalAmount := Obj.get body "totalAmount"
    let itemsBad :=
      match items with
      | some (.varr xs) => xs.isEmpty
      | _ => true
    if itemsBad then
      ({ status := 400,
         body := Resp.error "Items must be a non-empty array" 400 .vnull now }, fs)
    else if jsIsNaNOpt totalAmount || numLeZero totalAmount then
      ({ status := 400,
         body := Resp.error "Total amount must be a positive number" 400 .vnull now }, fs)
    else
      let newOrder := objLit
        [("userId", some (parseIntVal (Obj.get body "userId"))),
         ("items", items),
         ("totalAmount", some (parseFloatVal totalAmount)),
         ("status", some (.vstr "pending")),
         ("paymentMethod", some (orDefault (Obj.get body "paymentMethod") (.vstr "credit-card"))),
         ("shippingAddress", some (orDefault (Obj.get body "shippingAddress") (.vstr ""))),
         ("notes", some (orDefault (Obj.get body "notes") (.vstr "")))]
      let created := Db.create fs "orders.json" newOrder now
      ({ status := 201,
         body := Resp.success created.1 "Order created successfully" 201 now }, created.2)

/-- routes/orderRoutes.js `PUT /:id` (after validateId): rejects a truthy
`userId` in the body that differs from the stored one, coerces
`totalAmount` when present, then `db.update`. -/
def ordersPut (fs : FS) (id : String) (body : List (String × Value)) (now : String) :
    Response × FS :=
  match Db.getById fs "orders.json" id with
  | none => ({ status := 404, body := Resp.error "Order not found" 404 .vnull now }, fs)
  | some order =>
    if (Obj.get body "userId").any Value.truthy &&
       !(strictEqOpt (Obj.get body "userId") (order.getF "userId")) then
      ({ status := 400,
         body := Resp.error "Cannot change userId after order creation" 400 .vnull now }, fs)
    else
      let upd :=
        match Obj.get body "totalAmount" with
        | some tv => Obj.set body "totalAmount" (parseFloatVal (some tv))
        | none => body
      let updated := Db.update fs "orders.json" id upd now
      ({ status := 200,
         body := Resp.success ((updated.1).getD .vnull) "Order updated successfully" 200 now },
       updated.2)

/-- The valid order statuses of the PATCH route. -/
def validStatuses : List String :=
  ["pending", "confirmed", "shipped", "delivered", "cancelled"]

/-- routes/orderRoutes.js `PATCH /:id` (after validateId): a truthy `status`
must be one of the valid statuses (lower-cased); a truthy non-string status
makes `.toLowerCase()` throw and the try/catch answers 500. -/
def ordersPatch (fs : FS) (id : String) (body : List (String × Value)) (now : String) :
    Response × FS :=
  match Db.getById fs "orders.json" id with
  | none => ({ status := 404, body := Resp.error "Order not found" 404 .vnull now }, fs)
  | some _ =>
    let st := Obj.get body "status"
    if (orDefault st .vnull).truthy then
      match orDefault st .vnull with
      | .vstr s =>
        if !(validStatuses.contains s.toLower) then
          ({ status := 400,
             body := Resp.error ("Invalid status. Must be one of: " ++
                String.intercalate ", " validStatuses) 400 .vnull now }, fs)
        else
          let updated := Db.update fs "orders.json" id body now
          ({ status := 200,
             body := Resp.success ((updated.1).getD .vnull) "Order partially updated" 200 now },
           updated.2)
      | _ =>
        ({ status := 500, body := Resp.error "Failed to update order" 500 .vnull now }, fs)
    else
      let updated := Db.update fs "orders.json" id body now
      ({ status := 200,
         body := Resp.success ((updated.1).getD .vnull) "Order partially updated" 200 now },
       updated.2)

/-- routes/orderRoutes.js `DELETE /:id` (after validateId). -/
def ordersDelete (fs : FS) (id : String) (now : String) : Response × FS :=
  match Db.getById fs "orders.json" id with
  | none => ({ status := 404, body := Resp.error "Order not found" 404 .vnull now }, fs)
  | some _ =>
    let deleted := Db.deleteRecord fs "orders.json" id
    ({ status := 200,
       body := Resp.success .vnull "Order deleted successfully" 200 now }, deleted.2)

/-- routes/orderRoutes.js `GET /user/:userId` (after validateId). -/
def ordersByUser (fs : FS) (userId : String) (now : String) : Response × FS :=
  let userOrders := Db.filter fs "orders.json" (fun o =>
    match jsParseIntStr userId with
    | some n =>
      match o.getF "userId" with
      | some v => jsStrictEq v (.vnum n)
      | none => false
    | none => false)
  if userOrders.length = 0 then
    ({ status := 404, body := Resp.error "No orders found for this user" 404 .vnull now }, fs)
  else
    ({ status := 200, body := Resp.success (.varr userOrders) "User orders fetched" 200 now }, fs)

/-- routes/orderRoutes.js `GET /status/:status`: the filter calls
`o.status.toLowerCase()` unguarded, so a missing or non-string status on any
stored order throws and the try/catch answers 500. -/
def ordersByStatus (fs : FS) (status : String) (now : String) : Response × FS :=
  let data := Db.readFile fs "orders.json"
  if data.all (fun o => match o.getF "status" with | some (.vstr _) => true | _ => false) then
    let orders := data.filter (fun o =>
      match o.getF "status" with
      | some (.vstr s) => s.toLower = status.toLower
      | _ => false)
    if orders.length = 0 then
      ({ status := 404,
         body := Resp.error "No orders found with this status" 404 .vnull now }, fs)
    else
      ({ status := 200,
         body := Resp.success (.varr orders)
           ("Orders with status \x27" ++ status ++ "\x27 fetched") 200 now }, fs)
  else
    ({ status := 500,
       body := Resp.error "Failed to fetch orders by status" 500 .vnull now }, fs)

/-- routes/orderRoutes.js `POST /:id/cancel` (after validateId): only an
order whose status is exactly the string pending can be cancelled. -/
def ordersCancel (fs : FS) (id : String) (now : String) : Response × FS :=
  match Db.getById fs "orders.json" id with
  | none => ({ status := 404, body := Resp.error "Order not found" 404 .vnull now }, fs)
  | some order =>
    if !(match order.getF "status" with
         | some v => jsStrictEq v (.vstr "pending")
         | none => false) then
      ({ status := 400,
         body := Resp.error "Only pending orders can be cancelled" 400 .vnull now }, fs)
    else
      let updated := Db.update fs "orders.json" id [("status", .vstr "cancelled")] now
      ({ status := 200,
         body := Resp.success ((updated.1).getD .vnull) "Order cancelled successfully" 200 now },
       updated.2)

/-- routes/productRoutes.js as an Express router: path segments after the
mount point `/api/products`; `none` means no route matched and the request
falls through to the 404 handler of server.js. -/
def productRouter (fs : FS) (method : String) (segs : List String)
    (query : List (String × String)) (body : List (String × Value)) (now : String) :
    Option (Response × FS) :=
  match method, segs with
  | "GET", [] => some (productsList fs query now)
  | "GET", ["stock", "low"] => some (productsLowStock fs query now)
  | "GET", ["category", category] => some (productsByCategory fs category now)
  | "GET", [id] => some (withValidateId id fs (fun _ => productsGetById fs id now))
  | "POST", [] => some (productsPost fs body now)
  | "PUT", [id] => some (withValidateId id fs (fun _ => productsPut fs id body now))
  | "PATCH", [id] => some (withValidateId id fs (fun _ => productsPatch fs id body now))
  | "DELETE", [id] => some (withValidateId id fs (fun _ => productsDelete fs id now))
  | _, _ => none

/-- routes/orderRoutes.js as an Express router mounted at `/api/orders`. -/
def orderRouter (fs : FS) (method : String) (segs : List String)
    (query : List (String × String)) (body : List (String × Value)) (now : String) :
    Option (Response × FS) :=
  match method, segs with
  | "GET", [] => some (ordersList fs query now)
  | "GET", ["user", userId] => some (withValidateId userId fs (fun _ => ordersByUser fs userId now))
  | "GET", ["status", status] => some (ordersByStatus fs status now)
  | "GET", [id] => some (withValidateId id fs (fun _ => ordersGetById fs id now))
  | "POST", [] => some (ordersPost fs body now)
  | "POST", [id, "cancel"] => some (withValidateId id fs (fun _ => ordersCancel fs id now))
  | "PUT", [id] => some (withValidateId id fs (fun _ => ordersPut fs id body now))
  | "PATCH", [id] => some (withValidateId id fs (fun _ => ordersPatch fs id body now))
  | "DELETE", [id] => some (withValidateId id fs (fun _ => ordersDelete fs id now))
  | _, _ => none

/-- Modelled from the spec: routes/userRoutes.js is required and mounted by
server.js but its file is not among the sources; per the spec the routes are
"straightforward CRUD with inline validation" over the flat file users.json
with no authentication, so they are modelled as the same CRUD shape as the
product routes, computing from method, path, query and body only (never from
headers) and touching only users.json. -/
def userRouter (fs : FS) (method : String) (segs : List String)
    (body : List (String × Value)) (now : String) : Option (Response × FS) :=
  match method, segs with
  | "GET", [] =>
    some ({ status := 200,
            body := Resp.success (.varr (Db.getAll fs "users.json"))
              "Users fetched successfully" 200 now }, fs)
  | "GET", [id] =>
    some (withValidateId id fs (fun _ =>
      match Db.getById fs "users.json" id with
      | none => ({ status := 404, body := Resp.error "User not found" 404 .vnull now }, fs)
      | some user =>
        ({ status := 200, body := Resp.success user "User fetched successfully" 200 now }, fs)))
  | "POST", [] =>
    some (match validateRequired ["name", "email"] body with
      | some err => ({ status := 400, body := err }, fs)
      | none =>
        let created := Db.create fs "users.json" body now
        ({ status := 201,
           body := Resp.success created.1 "User created successfully" 201 now }, created.2))
  | "PUT", [id] =>
    some (withValidateId id fs (fun _ =>
      match Db.getById fs "users.json" id with
      | none => ({ status := 404, body := Resp.error "User not found" 404 .vnull now }, fs)
      | some _ =>
        let updated := Db.update fs "users.json" id body now
        ({ status := 200,
           body := Resp.success ((updated.1).getD .vnull) "User updated successfully" 200 now },
         updated.2)))
  | "DELETE", [id] =>
    some (withValidateId id fs (fun _ =>
      match Db.getById fs "users.json" id with
      | none => ({ status := 404, body := Resp.error "User not found" 404 .vnull now }, fs)
      | some _ =>
        let deleted := Db.deleteRecord fs "users.json" id
        ({ status := 200,
           body := Resp.success .vnull "User deleted successfully" 200 now }, deleted.2)))
  | _, _ => none

/-- A request as the handlers see it after the body-parsing middleware:
method, path split into segments, query map, parsed JSON body, and the raw
headers (which no route ever reads). -/
structure Request where
  method : String
  path : List String
  query : List (String × String)
  body : List (String × Value)
  headers : List (String × String)

/-- The textual path, e.g. `/api/products/3`, used by the 404 handler. -/
def pathString (segs : List String) : String :=
  "/" ++ String.intercalate "/" segs

/-- server.js 404 handler body. -/
def notFoundBody (method : String) (path : List String) : Value :=
  .vobj [("error", .vstr "Route not found"),
         ("path", .vstr (pathString path)),
         ("message", .vstr (method ++ " " ++ pathString path ++ " - Endpoint does not exist"))]

/-- server.js: health endpoint, the three mounted routers, and the trailing
404 handler; the pieces of the request other than the headers. -/
def apiCore (fs : FS) (method : String) (path : List String)
    (query : List (String × String)) (body : List (String × Value)) (now : String) :
    Response × FS :=
  match path with
  | ["health"] =>
    if method = "GET" then
      ({ status := 200,
         body := .vobj [("status", .vstr "Server is running"), ("timestamp", .vstr now)] }, fs)
    else ({ status := 404, body := notFoundBody method path }, fs)
  | "api" :: "users" :: rest =>
    (userRouter fs method rest body now).getD ({ status := 404, body := notFoundBody method path }, fs)
  | "api" :: "products" :: rest =>
    (productRouter fs method rest query body now).getD
      ({ status := 404, body := notFoundBody method path }, fs)
  | "api" :: "orders" :: rest =>
    (orderRouter fs method rest query body now).getD
      ({ status := 404, body := notFoundBody method path }, fs)
  | _ => ({ status := 404, body := notFoundBody method path }, fs)

/-- The whole server on one request: every handler receives only the method,
path, query and parsed body; the headers are accepted and ignored. -/
def apiHandle (fs : FS) (req : Request) (now : String) : Response × FS :=
  apiCore fs req.method req.path req.query req.body now

namespace Obj

theorem lookup_map_replace (o : List (String × Value)) (k : String) (v : Value)
    (h : (o.lookup k).isSome) :
    (o.map (fun p => if p.1 = k then (k, v) else p)).lookup k = some v := by
  induction o with
  | nil => simp [List.lookup] at h
  | cons a t ih =>
    rcases a with ⟨a1, a2⟩
    by_cases hk : a1 = k
    · subst hk
      simp [List.lookup_cons]
    · have hne : (k == a1) = false := by
        simp only [beq_eq_false_iff_ne, ne_eq]
        exact fun hh => hk hh.symm
      simp only [List.map_cons, if_neg hk]
      rw [List.lookup_cons] at h ⊢
      simp only [hne] at h ⊢
      exact ih h

theorem lookup_append_single (o : List (String × Value)) (k : String) (v : Value)
    (h : o.lookup k = none) :
    (o ++ [(k, v)]).lookup k = some v := by
  induction o with
  | nil => simp [List.lookup]
  | cons a t ih =>
    rw [List.lookup_cons] at h
    rcases a with ⟨a1, a2⟩
    cases hk : (k == a1) with
    | true => simp [hk] at h
    | false =>
      simp only [hk] at h
      simpa [List.lookup_cons, hk] using ih h

theorem get_set_self (o : List (String × Value)) (k : String) (v : Value) :
    get (set o k v) k = some v := by
  unfold get set
  by_cases h : (o.lookup k).isSome
  · rw [if_pos h]; exact lookup_map_replace o k v h
  · rw [if_neg h]
    exact lookup_append_single o k v (by
      cases hl : o.lookup k with
      | none => rfl
      | some w => rw [hl] at h; simp at h)

theorem lookup_map_replace_ne (o : List (String × Value)) (k k' : String) (v : Value)
    (h : k' ≠ k) :
    (o.map (fun p => if p.1 = k then (k, v) else p)).lookup k' = o.lookup k' := by
  induction o with
  | nil => rfl
  | cons a t ih =>
    by_cases hk : a.1 = k
    · have : (k' == k) = false := by simp [beq_iff_eq]; exact h
      simp only [List.map_cons, if_pos hk, List.lookup_cons, this]
      rw [List.lookup_cons]
      have : (k' == a.1) = false := by simp [beq_iff_eq]; rw [hk]; exact h
      simp only [this]
      exact ih
    · simp only [List.map_cons, if_neg hk]
      rw [List.lookup_cons, List.lookup_cons]
      cases hc : (k' == a.1) with
      | true => rfl
      | false => exact ih

theorem get_set_ne (o : List (String × Value)) (k k' : String) (v : Value)
    (h : k' ≠ k) : get (set o k v) k' = get o k' := by
  unfold get set
  by_cases hs : (o.lookup k).isSome
  · rw [if_pos hs]; exact lookup_map_replace_ne o k k' v h
  · rw [if_neg hs]
    induction o with
    | nil =>
      have : (k' == k) = false := by simp [beq_iff_eq]; exact h
      simp [List.lookup, this]
    | cons a t ih =>
      rw [List.cons_append, List.lookup_cons, List.lookup_cons]
      cases hc : (k' == a.1) with
      | true => rfl
      | false =>
        apply ih
        intro hsome
        apply hs
        rw [List.lookup_cons]
        cases hck : (k == a.1) with
        | true => rfl
        | false => simpa [hck] using hsome

theorem lookup_filter_ne_self (o : List (String × Value)) (k : String) :
    (o.filter (fun p => p.1 ≠ k)).lookup k = none := by
  induction o with
  | nil => rfl
  | cons a t ih =>
    rcases a with ⟨a1, a2⟩
    rw [List.filter_cons]
    by_cases hk : a1 = k
    · have hp : (decide (((a1, a2) : String × Value).1 ≠ k)) = false := by simp [hk]
      rw [hp]
      simpa using ih
    · have hp : (decide (((a1, a2) : String × Value).1 ≠ k)) = true := by simp [hk]
      rw [hp]
      have hc : (k == a1) = false := by
        simp only [beq_eq_false_iff_ne, ne_eq]
        exact fun hh => hk hh.symm
      simp only [if_true, List.lookup_cons, hc]
      exact ih

theorem lookup_filter_ne (o : List (String × Value)) (k k' : String) (h : k' ≠ k) :
    (o.filter (fun p => p.1 ≠ k)).lookup k' = o.lookup k' := by
  induction o with
  | nil => rfl
  | cons a t ih =>
    rcases a with ⟨a1, a2⟩
    rw [List.filter_cons, List.lookup_cons]
    by_cases hk : a1 = k
    · have hp : (decide (((a1, a2) : String × Value).1 ≠ k)) = false := by simp [hk]
      rw [hp]
      have hc : (k' == a1) = false := by
        simp only [beq_eq_false_iff_ne, ne_eq]
        rw [hk]; exact h
      simp only [hc]
      simpa using ih
    · have hp : (decide (((a1, a2) : String × Value).1 ≠ k)) = true := by simp [hk]
      rw [hp]
      simp only [if_true, List.lookup_cons]
      cases hc : (k' == a1) with
      | true => rfl
      | false => exact ih

theorem get_setOpt_self (o : List (String × Value)) (k : String) (ov : Option Value) :
    get (setOpt o k ov) k = ov := by
  cases ov with
  | some v => exact get_set_self o k v
  | none => exact lookup_filter_ne_self o k

theorem get_setOpt_ne (o : List (String × Value)) (k k' : String) (ov : Option Value)
    (h : k' ≠ k) : get (setOpt o k ov) k' = get o k' := by
  cases ov with
  | some v => exact get_set_ne o k k' v h
  | none => exact lookup_filter_ne o k k' h

theorem get_mergeList_not_mem (a b : List (String × Value)) (k : String)
    (h : b.lookup k = none) : get (mergeList a b) k = get a k := by
  induction b generalizing a with
  | nil => rfl
  | cons p t ih =>
    rcases p with ⟨pk, pv⟩
    rw [List.lookup_cons] at h
    cases hc : (k == pk) with
    | true => simp [hc] at h
    | false =>
      have hne : k ≠ pk := by
        intro hh; rw [hh] at hc; simp at hc
      simp only [hc] at h
      show get (mergeList (set a pk pv) t) k = get a k
      rw [ih (set a pk pv) h]
      exact get_set_ne a pk k pv hne

end Obj

/-- The file system restricted to a single file: what an operation can see if
it truly depends only on the named file. -/
def restrictFS (fs : FS) (filename : String) : FS :=
  fun n => if n = filename then fs filename else none

namespace Db

theorem readFile_restrict (fs : FS) (filename : String) :
    readFile (restrictFS fs filename) filename = readFile fs filename := by
  unfold readFile restrictFS
  rw [if_pos rfl]

theorem readFile_writeFile_self (fs : FS) (filename : String) (data : List Value) :
    readFile (writeFile fs filename data) filename = data := by
  unfold readFile writeFile
  rw [if_pos rfl]
  rfl

theorem writeFile_ne (fs : FS) (filename n : String) (data : List Value)
    (h : n ≠ filename) : writeFile fs filename data n = fs n := by
  unfold writeFile
  rw [if_neg h]

theorem create_frame (fs : FS) (filename n : String) (r : List (String × Value))
    (now : String) (h : n ≠ filename) : (create fs filename r now).2 n = fs n := by
  unfold create
  exact writeFile_ne _ _ _ _ h

theorem update_frame (fs : FS) (filename n id : String) (upd : List (String × Value))
    (now : String) (h : n ≠ filename) : (update fs filename id upd now).2 n = fs n := by
  simp only [update]
  split
  · rfl
  · exact writeFile_ne _ _ _ _ h

theorem deleteRecord_frame (fs : FS) (filename n id : String)
    (h : n ≠ filename) : (deleteRecord fs filename id).2 n = fs n := by
  unfold deleteRecord
  by_cases hl : ((readFile fs filename).filter
      (fun item => !(matchId id item))).length = (readFile fs filename).length
  · rw [if_pos hl]
  · rw [if_neg hl]
    exact writeFile_ne _ _ _ _ h

end Db

theorem productsList_snd (fs : FS) (q : List (String × String)) (now : String) :
    (productsList fs q now).2 = fs := by
  simp only [productsList]
  split <;> rfl

theorem productsGetById_snd (fs : FS) (id now : String) :
    (productsGetById fs id now).2 = fs := by
  simp only [productsGetById]
  split <;> rfl

theorem productsLowStock_snd (fs : FS) (q : List (String × String)) (now : String) :
    (productsLowStock fs q now).2 = fs := rfl

theorem productsByCategory_snd (fs : FS) (c now : String) :
    (productsByCategory fs c now).2 = fs := by
  simp only [productsByCategory]
  split <;> (try split) <;> rfl

theorem ordersList_snd (fs : FS) (q : List (String × String)) (now : String) :
    (ordersList fs q now).2 = fs := rfl

theorem ordersGetById_snd (fs : FS) (id now : String) :
    (ordersGetById fs id now).2 = fs := by
  simp only [ordersGetById]
  split <;> rfl

theorem ordersByUser_snd (fs : FS) (u now : String) :
    (ordersByUser fs u now).2 = fs := by
  simp only [ordersByUser]
  split <;> rfl

theorem ordersByStatus_snd (fs : FS) (st now : String) :
    (ordersByStatus fs st now).2 = fs := by
  simp only [ordersByStatus]
  split <;> (try split) <;> rfl

theorem withValidateId_frame (id : String) (fs : FS) (k : Unit → Response × FS)
    (f : String) (h : ((k ()).2) f = fs f) : ((withValidateId id fs k).2) f = fs f := by
  simp only [withValidateId]
  split
  · rfl
  · exact h

theorem productsPost_frame (fs : FS) (b : List (String × Value)) (now f : String)
    (h : f ≠ "products.json") : (productsPost fs b now).2 f = fs f := by
  simp only [productsPost]
  split
  · rfl
  · split
    · rfl
    · exact Db.create_frame _ _ _ _ _ h

theorem productsPut_frame (fs : FS) (id : String) (b : List (String × Value)) (now f : String)
    (h : f ≠ "products.json") : (productsPut fs id b now).2 f = fs f := by
  simp only [productsPut]
  split
  · rfl
  · exact Db.update_frame _ _ _ _ _ _ h

theorem productsPatch_frame (fs : FS) (id : String) (b : List (String × Value)) (now f : String)
    (h : f ≠ "products.json") : (productsPatch fs id b now).2 f = fs f := by
  simp only [productsPatch]
  split
  · rfl
  · exact Db.update_frame _ _ _ _ _ _ h

theorem productsDelete_frame (fs : FS) (id now f : String)
    (h : f ≠ "products.json") : (productsDelete fs id now).2 f = fs f := by
  simp only [productsDelete]
  split
  · rfl
  · exact Db.deleteRecord_frame _ _ _ _ h

theorem ordersPost_frame (fs : FS) (b : List (String × Value)) (now f : String)
    (h : f ≠ "orders.json") : (ordersPost fs b now).2 f = fs f := by
  simp only [ordersPost]
  split
  · rfl
  · split
    · rfl
    · split
      · rfl
      · exact Db.create_frame _ _ _ _ _ h

theorem ordersPut_frame (fs : FS) (id : String) (b : List (String × Value)) (now f : String)
    (h : f ≠ "orders.json") : (ordersPut fs id b now).2 f = fs f := by
  simp only [ordersPut]
  split
  · rfl
  · split
    · rfl
    · exact Db.update_frame _ _ _ _ _ _ h

theorem ordersPatch_frame (fs : FS) (id : String) (b : List (String × Value)) (now f : String)
    (h : f ≠ "orders.json") : (ordersPatch fs id b now).2 f = fs f := by
  simp only [ordersPatch]
  split
  · rfl
  · split
    · split
      · split
        · rfl
        · exact Db.update_frame _ _ _ _ _ _ h
      · rfl
    · exact Db.update_frame _ _ _ _ _ _ h

theorem ordersDelete_frame (fs : FS) (id now f : String)
    (h : f ≠ "orders.json") : (ordersDelete fs id now).2 f = fs f := by
  simp only [ordersDelete]
  split
  · rfl
  · exact Db.deleteRecord_frame _ _ _ _ h

theorem ordersCancel_frame (fs : FS) (id now f : String)
    (h : f ≠ "orders.json") : (ordersCancel fs id now).2 f = fs f := by
  simp only [ordersCancel]
  split
  · rfl
  · split
    · rfl
    · exact Db.update_frame _ _ _ _ _ _ h

theorem userRouter_frame (fs : FS) (m : String) (segs : List String)
    (b : List (String × Value)) (now : String) (d : Response) (f : String)
    (h : f ≠ "users.json") :
    (((userRouter fs m segs b now).getD (d, fs)).2) f = fs f := by
  simp only [userRouter]
  split
  · rfl
  · simp only [Option.getD_some]
    apply withValidateId_frame
    split
    · rfl
    · rfl
  · simp only [Option.getD_some]
    split
    · rfl
    · exact Db.create_frame _ _ _ _ _ h
  · simp only [Option.getD_some]
    apply withValidateId_frame
    split
    · rfl
    · exact Db.update_frame _ _ _ _ _ _ h
  · simp only [Option.getD_some]
    apply withValidateId_frame
    split
    · rfl
    · exact Db.deleteRecord_frame _ _ _ _ h
  · rfl

theorem productRouter_frame (fs : FS) (m : String) (segs : List String)
    (q : List (String × String)) (b : List (String × Value)) (now : String)
    (d : Response) (f : String) (h : f ≠ "products.json") :
    (((productRouter fs m segs q b now).getD (d, fs)).2) f = fs f := by
  simp only [productRouter]
  split
  · simp only [Option.getD_some, productsList_snd]
  · rfl
  · simp only [Option.getD_some, productsByCategory_snd]
  · simp only [Option.getD_some]
    apply withValidateId_frame
    rw [productsGetById_snd]
  · simp only [Option.getD_some]
    exact productsPost_frame _ _ _ _ h
  · simp only [Option.getD_some]
    apply withValidateId_frame
    exact productsPut_frame _ _ _ _ _ h
  · simp only [Option.getD_some]
    apply withValidateId_frame
    exact productsPatch_frame _ _ _ _ _ h
  · simp only [Option.getD_some]
    apply withValidateId_frame
    exact productsDelete_frame _ _ _ _ h
  · rfl

theorem orderRouter_frame (fs : FS) (m : String) (segs : List String)
    (q : List (String × String)) (b : List (String × Value)) (now : String)
    (d : Response) (f : String) (h : f ≠ "orders.json") :
    (((orderRouter fs m segs q b now).getD (d, fs)).2) f = fs f := by
  simp only [orderRouter]
  split
  · rfl
  · simp only [Option.getD_some]
    apply withValidateId_frame
    rw [ordersByUser_snd]
  · simp only [Option.getD_some, ordersByStatus_snd]
  · simp only [Option.getD_some]
    apply withValidateId_frame
    rw [ordersGetById_snd]
  · simp only [Option.getD_some]
    exact ordersPost_frame _ _ _ _ h
  · simp only [Option.getD_some]
    apply withValidateId_frame
    exact ordersCancel_frame _ _ _ _ h
  · simp only [Option.getD_some]
    apply withValidateId_frame
    exact ordersPut_frame _ _ _ _ _ h
  · simp only [Option.getD_some]
    apply withValidateId_frame
    exact ordersPatch_frame _ _ _ _ _ h
  · simp only [Option.getD_some]
    apply withValidateId_frame
    exact ordersDelete_frame _ _ _ _ h
  · rfl

/-- The at-most-one file a request can change, by its mount path. -/
def touchedFile : List String → Option String
  | "api" :: "users" :: _ => some "users.json"
  | "api" :: "products" :: _ => some "products.json"
  | "api" :: "orders" :: _ => some "orders.json"
  | _ => none

/-- C1: every database operation computes its result solely from the full
parsed contents of the single named file obtained by one readFile call (its
result is unchanged when the file system is restricted to that file), and
every mutating operation writes the complete updated record array back to
that file in one writeFile call (its post-state is exactly a writeFile of
the whole updated array, or the untouched pre-state when update and
deleteRecord find nothing). -/
theorem db_ops_whole_file (fs : FS) (name id fld : String) (v : Value)
    (fn : Value → Bool) (rec upd : List (String × Value)) (now : String) :
    Db.getAll fs name = Db.getAll (restrictFS fs name) name ∧
    Db.getById fs name id = Db.getById (restrictFS fs name) name id ∧
    Db.search fs name fld v = Db.search (restrictFS fs name) name fld v ∧
    Db.filter fs name fn = Db.filter (restrictFS fs name) name fn ∧
    Db.count fs name = Db.count (restrictFS fs name) name ∧
    (Db.create fs name rec now).1 = (Db.create (restrictFS fs name) name rec now).1 ∧
    (Db.create fs name rec now).2 =
      Db.writeFile fs name (Db.readFile fs name ++ [(Db.create fs name rec now).1]) ∧
    (Db.update fs name id upd now).1 = (Db.update (restrictFS fs name) name id upd now).1 ∧
    (Db.update fs name id upd now).2 =
      (match (Db.readFile fs name).findIdx? (Db.matchId id) with
       | none => fs
       | some i => Db.writeFile fs name
           ((Db.readFile fs name).set i (((Db.update fs name id upd now).1).getD .vnull))) ∧
    (Db.deleteRecord fs name id).1 = (Db.deleteRecord (restrictFS fs name) name id).1 ∧
    (Db.deleteRecord fs name id).2 =
      (if ((Db.readFile fs name).filter (fun item => !(Db.matchId id item))).length =
          (Db.readFile fs name).length then fs
       else Db.writeFile fs name
         ((Db.readFile fs name).filter (fun item => !(Db.matchId id item)))) := by
  refine ⟨?_, ?_, ?_, ?_, ?_, ?_, ?_, ?_, ?_, ?_, ?_⟩
  · simp [Db.getAll, Db.readFile_restrict]
  · simp [Db.getById, Db.readFile_restrict]
  · simp [Db.search, Db.readFile_restrict]
  · simp [Db.filter, Db.readFile_restrict]
  · simp [Db.count, Db.readFile_restrict]
  · simp [Db.create, Db.readFile_restrict]
  · rfl
  · cases h : (Db.readFile fs name).findIdx? (Db.matchId id) with
    | none => simp [Db.update, Db.readFile_restrict, h]
    | some i => simp [Db.update, Db.readFile_restrict, h]
  · cases h : (Db.readFile fs name).findIdx? (Db.matchId id) with
    | none => simp [Db.update, h]
    | some i => simp [Db.update, h]
  · by_cases h : ((Db.readFile fs name).filter (fun item => !(Db.matchId id item))).length =
        (Db.readFile fs name).length
    · simp [Db.deleteRecord, Db.readFile_restrict, h]
    · simp [Db.deleteRecord, Db.readFile_restrict, h]
  · by_cases h : ((Db.readFile fs name).filter (fun item => !(Db.matchId id item))).length =
        (Db.readFile fs name).length
    · simp [Db.deleteRecord, h]
    · simp [Db.deleteRecord, h]

/-- C4: no route inspects credentials or identity: two requests agreeing on
method, path, query and body but with arbitrary, possibly different, headers
produce the same response and the same effect on every stored file (the
responses are byte-identical when produced at the same clock reading, so
real responses differ at most in generated timestamps). -/
theorem no_authentication (fs : FS) (m : String) (p : List String)
    (q : List (String × String)) (b : List (String × Value))
    (h1 h2 : List (String × String)) (now : String) :
    apiHandle fs { method := m, path := p, query := q, body := b, headers := h1 } now =
      apiHandle fs { method := m, path := p, query := q, body := b, headers := h2 } now := rfl

/-- C5: storage is partitioned per resource: handling a request under
`/api/products` changes at most products.json, one under `/api/orders` at
most orders.json, one under `/api/users` at most users.json, and any other
request changes nothing; every other file is returned unchanged. -/
theorem per_resource_frame (fs : FS) (req : Request) (now f : String)
    (h : touchedFile req.path ≠ some f) :
    (apiHandle fs req now).2 f = fs f := by
  rcases req with ⟨m, p, q, b, hs⟩
  simp only [apiHandle, apiCore]
  split
  · split <;> rfl
  · rename_i rest
    apply userRouter_frame
    intro hf
    apply h
    simp only [touchedFile, hf]
  · rename_i rest
    apply productRouter_frame
    intro hf
    apply h
    simp only [touchedFile, hf]
  · rename_i rest
    apply orderRouter_frame
    intro hf
    apply h
    simp only [touchedFile, hf]
  · rfl

/-- C6: create is an unsynchronized read-modify-write of the whole file (it
is literally its read phase followed by its write phase), so when a second
client's create reads before the first one's write lands, the second write
erases the first record: the interleaved run grows the file by one record
where the serialized run grows it by two. -/
theorem lost_update_interleaving (fs : FS) (name : String)
    (rA rB : List (String × Value)) (nowA nowB : String) :
    Db.create fs name rA nowA =
      (Db.mkRecord (Db.readFile fs name) rA nowA,
       Db.writeFile fs name
         (Db.readFile fs name ++ [Db.mkRecord (Db.readFile fs name) rA nowA])) ∧
    Db.readFile
        (Db.writeFile
          (Db.writeFile fs name
            (Db.readFile fs name ++ [Db.mkRecord (Db.readFile fs name) rA nowA]))
          name
          (Db.readFile fs name ++ [Db.mkRecord (Db.readFile fs name) rB nowB])) name =
      Db.readFile fs name ++ [Db.mkRecord (Db.readFile fs name) rB nowB] ∧
    (Db.readFile
        (Db.writeFile
          (Db.writeFile fs name
            (Db.readFile fs name ++ [Db.mkRecord (Db.readFile fs name) rA nowA]))
          name
          (Db.readFile fs name ++ [Db.mkRecord (Db.readFile fs name) rB nowB])) name).length =
      (Db.readFile fs name).length + 1 ∧
    (Db.readFile (Db.create (Db.create fs name rA nowA).2 name rB nowB).2 name).length =
      (Db.readFile fs name).length + 2 := by
  refine ⟨rfl, Db.readFile_writeFile_self _ _ _, ?_, ?_⟩
  · rw [Db.readFile_writeFile_self]
    simp
  · show (Db.readFile
      (Db.writeFile _ name
        (Db.readFile (Db.create fs name rA nowA).2 name ++
          [Db.mkRecord (Db.readFile (Db.create fs name rA nowA).2 name) rB nowB])) name).length = _
    rw [Db.readFile_writeFile_self]
    show (Db.readFile (Db.writeFile fs name _) name ++ _).length = _
    rw [Db.readFile_writeFile_self]
    simp

/-- A small concrete store used by the witnesses. -/
def wfsResource : FS := fun n =>
  if n = "products.json" then some [Value.vobj [("id", Value.vnum 1), ("name", Value.vstr "A")]]
  else if n = "orders.json" then
    some [Value.vobj [("id", Value.vnum 1), ("status", Value.vstr "pending")]]
  else none

/-- Witness for C5: deleting a product leaves orders.json untouched. -/
theorem per_resource_frame_witness :
    (apiHandle wfsResource
      { method := "DELETE", path := ["api", "products", "1"], query := [],
        body := [], headers := [] } "T").2 "orders.json" = wfsResource "orders.json" :=
  per_resource_frame wfsResource _ "T" "orders.json" (by decide)

/-- C2: file I/O failure is absorbed: readFile yields the empty array when
the file is missing, empty, or fails to JSON-parse, and the parsed contents
otherwise; writeFile returns false leaving the disk untouched when the write
raises, and true having replaced exactly the named file otherwise.  Both are
total functions: no exception escapes. -/
theorem file_io_absorbed (d : Disk) (name s : String) (v w : Value) :
    (d.files name = none → diskReadFile d name = .varr []) ∧
    (d.files name = some "" → diskReadFile d name = .varr []) ∧
    (d.files name = some s → jsonParse s = none → diskReadFile d name = .varr []) ∧
    (d.files name = some s → s ≠ "" → jsonParse s = some v → diskReadFile d name = v) ∧
    (d.badWrites name = true → diskWriteFile d name w = (false, d)) ∧
    (d.badWrites name = false →
      (diskWriteFile d name w).1 = true ∧
      (diskWriteFile d name w).2.files name = some (jsonStringify w) ∧
      ∀ n, n ≠ name → (diskWriteFile d name w).2.files n = d.files n) := by
  refine ⟨?_, ?_, ?_, ?_, ?_, ?_⟩
  · intro h; simp [diskReadFile, h]
  · intro h; simp [diskReadFile, h]
  · intro h hp
    by_cases hs : s = ""
    · simp [diskReadFile, h, hs]
    · simp [diskReadFile, h, hs, hp]
  · intro h hs hv
    simp [diskReadFile, h, hs, hv]
  · intro h; simp [diskWriteFile, h]
  · intro h
    refine ⟨?_, ?_, ?_⟩
    · simp [diskWriteFile, h]
    · simp [diskWriteFile, h]
    · intro n hn
      simp [diskWriteFile, h, hn]

/-- A small concrete disk used by the C2 witness: one well-formed file, one
empty file, one unparsable file, one filename whose writes fail. -/
def wdisk : Disk :=
  { files := fun n =>
      if n = "a.json" then some "[1]"
      else if n = "e.json" then some ""
      else if n = "b.json" then some "not json"
      else none,
    badWrites := fun n => n = "w.json" }

/-- Witness for C2 on the concrete disk: all four readFile cases and both
writeFile cases. -/
theorem file_io_absorbed_witness :
    diskReadFile wdisk "missing.json" = .varr [] ∧
    diskReadFile wdisk "e.json" = .varr [] ∧
    diskReadFile wdisk "b.json" = .varr [] ∧
    diskReadFile wdisk "a.json" = .varr [.vnum 1] ∧
    diskWriteFile wdisk "w.json" (.varr []) = (false, wdisk) ∧
    (diskWriteFile wdisk "a.json" (.varr [])).1 = true :=
  ⟨(file_io_absorbed wdisk "missing.json" "" .vnull .vnull).1 (by with_unfolding_all rfl),
   (file_io_absorbed wdisk "e.json" "" .vnull .vnull).2.1 (by with_unfolding_all rfl),
   (file_io_absorbed wdisk "b.json" "not json" .vnull .vnull).2.2.1
     (by with_unfolding_all rfl) (by with_unfolding_all rfl),
   (file_io_absorbed wdisk "a.json" "[1]" (.varr [.vnum 1]) .vnull).2.2.2.1
     (by with_unfolding_all rfl) (by decide) (by with_unfolding_all rfl),
   (file_io_absorbed wdisk "w.json" "" .vnull (.varr [])).2.2.2.2.1
     (by with_unfolding_all rfl),
   ((file_io_absorbed wdisk "a.json" "" .vnull (.varr [])).2.2.2.2.2
     (by with_unfolding_all rfl)).1⟩

theorem validateRequired_of_missing (fields : List String) (body : List (String × Value))
    (f : String) (hf : f ∈ fields)
    (hm : Obj.get body f = none ∨ Obj.get body f = some .vnull ∨
      Obj.get body f = some (.vstr "")) :
    ∃ e, validateRequired fields body = some e := by
  unfold validateRequired
  have hpred : (match Obj.get body f with
      | none => true
      | some .vnull => true
      | some (.vstr s) => decide (s.trim = "")
      | some _ => false) = true := by
    rcases hm with h | h | h <;> rw [h] <;> simp <;> with_unfolding_all rfl
  have hmem : f ∈ fields.filter (fun field =>
      match Obj.get body field with
      | none => true
      | some .vnull => true
      | some (.vstr s) => decide (s.trim = "")
      | some _ => false) := List.mem_filter.mpr ⟨hf, hpred⟩
  have hlen : 0 < (fields.filter (fun field =>
      match Obj.get body field with
      | none => true
      | some .vnull => true
      | some (.vstr s) => decide (s.trim = "")
      | some _ => false)).length := List.length_pos.mpr (List.ne_nil_of_mem hmem)
  rw [if_pos hlen]
  exact ⟨_, rfl⟩

/-- C3: each mutating POST route validates inline before touching storage:
a required field that is absent, null, or an empty string, a product price
or stock that is negative or not a number, an order items value that is not
a non-empty array, or an order totalAmount that is not a positive number,
all produce a 400 response and leave the store unchanged. -/
theorem mutating_routes_validate (fs : FS) (body : List (String × Value)) (now : String) :
    ((∃ f ∈ (["name", "price", "category", "stock"] : List String),
        Obj.get body f = none ∨ Obj.get body f = some .vnull ∨
          Obj.get body f = some (.vstr "")) →
      (productsPost fs body now).1.status = 400 ∧ (productsPost fs body now).2 = fs) ∧
    ((jsIsNaNOpt (Obj.get body "price") = true ∨ numLtZero (Obj.get body "price") = true ∨
      jsIsNaNOpt (Obj.get body "stock") = true ∨ numLtZero (Obj.get body "stock") = true) →
      (productsPost fs body now).1.status = 400 ∧ (productsPost fs body now).2 = fs) ∧
    ((∃ f ∈ (["userId", "items", "totalAmount"] : List String),
        Obj.get body f = none ∨ Obj.get body f = some .vnull ∨
          Obj.get body f = some (.vstr "")) →
      (ordersPost fs body now).1.status = 400 ∧ (ordersPost fs body now).2 = fs) ∧
    ((∀ xs, Obj.get body "items" = some (.varr xs) → xs = []) →
      (ordersPost fs body now).1.status = 400 ∧ (ordersPost fs body now).2 = fs) ∧
    ((jsIsNaNOpt (Obj.get body "totalAmount") = true ∨
      numLeZero (Obj.get body "totalAmount") = true) →
      (ordersPost fs body now).1.status = 400 ∧ (ordersPost fs body now).2 = fs) := by
  refine ⟨?_, ?_, ?_, ?_, ?_⟩
  · rintro ⟨f, hf, hm⟩
    obtain ⟨e, he⟩ := validateRequired_of_missing _ body f hf hm
    refine ⟨?_, ?_⟩ <;> simp [productsPost, he]
  · intro hd
    have hcond : (jsIsNaNOpt (Obj.get body "price") || numLtZero (Obj.get body "price") ||
        jsIsNaNOpt (Obj.get body "stock") || numLtZero (Obj.get body "stock")) = true := by
      rcases hd with h | h | h | h <;> simp [h]
    cases hv : validateRequired ["name", "price", "category", "stock"] body with
    | some e => refine ⟨?_, ?_⟩ <;> simp [productsPost, hv]
    | none => refine ⟨?_, ?_⟩ <;> simp [productsPost, hv, hcond]
  · rintro ⟨f, hf, hm⟩
    obtain ⟨e, he⟩ := validateRequired_of_missing _ body f hf hm
    refine ⟨?_, ?_⟩ <;> simp [ordersPost, he]
  · intro hitems
    cases hv : validateRequired ["userId", "items", "totalAmount"] body with
    | some e => refine ⟨?_, ?_⟩ <;> simp [ordersPost, hv]
    | none =>
      have hbad : (match Obj.get body "items" with
          | some (.varr xs) => xs.isEmpty
          | _ => true) = true := by
        cases hi : Obj.get body "items" with
        | none => rfl
        | some v =>
          cases v with
          | varr xs =>
            have hxs := hitems xs hi
            subst hxs
            rfl
          | vnull => rfl
          | vbool b => rfl
          | vnum q => rfl
          | vnan => rfl
          | vstr s => rfl
          | vobj o => rfl
      refine ⟨?_, ?_⟩ <;> simp [ordersPost, hv, hbad]
  · intro hd
    have hta : (jsIsNaNOpt (Obj.get body "totalAmount") ||
        numLeZero (Obj.get body "totalAmount")) = true := by
      rcases hd with h | h <;> simp [h]
    cases hv : validateRequired ["userId", "items", "totalAmount"] body with
    | some e => refine ⟨?_, ?_⟩ <;> simp [ordersPost, hv]
    | none =>
      by_cases hib : (match Obj.get body "items" with
          | some (.varr xs) => xs.isEmpty
          | _ => true) = true
      · refine ⟨?_, ?_⟩ <;> simp [ordersPost, hv, hib]
      · have hib' : (match Obj.get body "items" with
            | some (.varr xs) => xs.isEmpty
            | _ => true) = false := by
          cases hx : (match Obj.get body "items" with
              | some (.varr xs) => xs.isEmpty
              | _ => true) with
          | true => exact absurd hx hib
          | false => rfl
        refine ⟨?_, ?_⟩ <;> simp [ordersPost, hv, hib', hta]

/-- An empty parsed-layer store for witnesses. -/
def emptyFS : FS := fun _ => none

/-- A product POST body with a negative price. -/
def wbodyNegPrice : List (String × Value) :=
  [("name", .vstr "x"), ("price", .vnum (-1)), ("category", .vstr "c"), ("stock", .vnum 1)]

/-- Witness for C3: POSTing a product with price -1 answers 400 and leaves
the store untouched. -/
theorem mutating_routes_validate_witness :
    (productsPost emptyFS wbodyNegPrice "T").1.status = 400 ∧
    (productsPost emptyFS wbodyNegPrice "T").2 = emptyFS :=
  (mutating_routes_validate emptyFS wbodyNegPrice "T").2.1
    (Or.inr (Or.inl (by decide)))

/-- C8: update on a found record returns the merged record whose id and
createdAt are the stored record's ones whatever updateData supplies, whose
updatedAt is the fresh timestamp, and writes back the array changed only at
the found index; when no stored record matches the id, it returns null and
leaves the store untouched. -/
theorem update_preserves (fs : FS) (name idStr : String)
    (upd : List (String × Value)) (now : String) :
    ((Db.readFile fs name).findIdx? (Db.matchId idStr) = none →
      Db.update fs name idStr upd now = (none, fs)) ∧
    (∀ i old, (Db.readFile fs name).findIdx? (Db.matchId idStr) = some i →
      (Db.readFile fs name).get? i = some old →
      ∃ r, (Db.update fs name idStr upd now).1 = some r ∧
        r.getF "id" = old.getF "id" ∧
        r.getF "createdAt" = old.getF "createdAt" ∧
        r.getF "updatedAt" = some (.vstr now) ∧
        (Db.update fs name idStr upd now).2 =
          Db.writeFile fs name ((Db.readFile fs name).set i r) ∧
        (∀ j, j ≠ i →
          ((Db.readFile fs name).set i r).get? j = (Db.readFile fs name).get? j)) := by
  constructor
  · intro h
    simp [Db.update, h]
  · intro i old hidx hget
    have hud : Db.update fs name idStr upd now =
        (some (Value.vobj
          (Obj.set (Obj.setOpt (Obj.setOpt (Obj.mergeList old.fields upd) "id"
            (old.getF "id")) "createdAt" (old.getF "createdAt")) "updatedAt" (.vstr now))),
         Db.writeFile fs name ((Db.readFile fs name).set i
          (Value.vobj
            (Obj.set (Obj.setOpt (Obj.setOpt (Obj.mergeList old.fields upd) "id"
              (old.getF "id")) "createdAt" (old.getF "createdAt")) "updatedAt"
              (.vstr now))))) := by
      have hget' : (Db.readFile fs name)[i]? = some old := by
        rw [← List.get?_eq_getElem?]; exact hget
      simp [Db.update, hidx, hget']
    refine ⟨_, by rw [hud], ?_, ?_, ?_, by rw [hud], ?_⟩
    · simp only [Value.getF]
      rw [Obj.get_set_ne _ _ _ _ (by decide), Obj.get_setOpt_ne _ _ _ _ (by decide),
        Obj.get_setOpt_self]
    · simp only [Value.getF]
      rw [Obj.get_set_ne _ _ _ _ (by decide), Obj.get_setOpt_self]
    · simp only [Value.getF]
      rw [Obj.get_set_self]
    · intro j hj
      exact List.get?_set_ne _ _ (Ne.symm hj)

/-- A two-record store used by the C8 and C9 witnesses. -/
def wofs : FS := fun n =>
  if n = "t.json" then
    some [Value.vobj [("id", .vnum 1), ("createdAt", .vstr "C"), ("x", .vnum 5)],
          Value.vobj [("id", .vnum 2)]]
  else none

/-- Witness for C8: updating record 1 with a body that tries to overwrite id
and createdAt preserves both. -/
theorem update_preserves_witness :
    ∃ r, (Db.update wofs "t.json" "1"
        [("id", .vnum 99), ("createdAt", .vstr "H"), ("x", .vnum 7)] "T").1 = some r ∧
      r.getF "id" = (Value.vobj [("id", .vnum 1), ("createdAt", .vstr "C"),
        ("x", .vnum 5)]).getF "id" ∧
      r.getF "createdAt" = (Value.vobj [("id", .vnum 1), ("createdAt", .vstr "C"),
        ("x", .vnum 5)]).getF "createdAt" ∧
      r.getF "updatedAt" = some (.vstr "T") ∧
      (Db.update wofs "t.json" "1"
          [("id", .vnum 99), ("createdAt", .vstr "H"), ("x", .vnum 7)] "T").2 =
        Db.writeFile wofs "t.json" ((Db.readFile wofs "t.json").set 0 r) ∧
      (∀ j, j ≠ 0 →
        ((Db.readFile wofs "t.json").set 0 r).get? j = (Db.readFile wofs "t.json").get? j) :=
  (update_preserves wofs "t.json" "1"
      [("id", .vnum 99), ("createdAt", .vstr "H"), ("x", .vnum 7)] "T").2 0
    (Value.vobj [("id", .vnum 1), ("createdAt", .vstr "C"), ("x", .vnum 5)])
    (by with_unfolding_all rfl) (by with_unfolding_all rfl)

theorem find?_eq_findIdx?_get? {α : Type} (p : α → Bool) (l : List α) :
    l.find? p = (l.findIdx? p).bind l.get? := by
  induction l with
  | nil => rfl
  | cons x xs ih =>
    rw [List.find?_cons, List.findIdx?_cons]
    cases hp : p x with
    | true => simp
    | false =>
      simp only
      rw [List.findIdx?_succ, ih]
      cases h : xs.findIdx? p with
      | none => simp
      | some i => simp

theorem jsStrictEq_vstr (v : Value) (s : String) (h : jsStrictEq v (.vstr s) = true) :
    v = .vstr s := by
  cases v with
  | vstr a => simp only [jsStrictEq, beq_iff_eq] at h; rw [h]
  | vnull => simp [jsStrictEq] at h
  | vbool b => simp [jsStrictEq] at h
  | vnum q => simp [jsStrictEq] at h
  | vnan => simp [jsStrictEq] at h
  | varr xs => simp [jsStrictEq] at h
  | vobj o => simp [jsStrictEq] at h

theorem matchId_vobj (id : String) (ord : Value) (h : Db.matchId id ord = true) :
    ∃ o, ord = .vobj o := by
  unfold Db.matchId at h
  cases hp : jsParseIntStr id with
  | none => rw [hp] at h; simp at h
  | some n =>
    rw [hp] at h
    cases ord with
    | vobj o => exact ⟨o, rfl⟩
    | vnull => simp [Value.getF] at h
    | vbool b => simp [Value.getF] at h
    | vnum q => simp [Value.getF] at h
    | vnan => simp [Value.getF] at h
    | vstr s => simp [Value.getF] at h
    | varr xs => simp [Value.getF] at h

/-- The cancel request of C9, as the server receives it. -/
def cancelReq (idStr : String) (q : List (String × String))
    (b : List (String × Value)) (hdrs : List (String × String)) : Request :=
  { method := "POST", path := ["api", "orders", idStr, "cancel"],
    query := q, body := b, headers := hdrs }

/-- C9: POST /api/orders/:id/cancel succeeds (status 200) exactly when the
order found for the id has status exactly the string pending; on success the
stored array changes only at that order, whose status becomes cancelled and
updatedAt the fresh timestamp with every other field unchanged; every
non-success response (400 for a bad id format or a non-pending order, 404
for a missing order) leaves the stored orders unchanged. -/
theorem cancel_route (fs : FS) (idStr : String) (q : List (String × String))
    (b : List (String × Value)) (hdrs : List (String × String)) (now : String) :
    ((apiHandle fs (cancelReq idStr q b hdrs) now).1.status ≠ 200 →
      (apiHandle fs (cancelReq idStr q b hdrs) now).2 = fs) ∧
    (validateId (some idStr) = none →
      ((apiHandle fs (cancelReq idStr q b hdrs) now).1.status = 200 ↔
        ∃ ord, (Db.readFile fs "orders.json").find? (Db.matchId idStr) = some ord ∧
          ord.getF "status" = some (.vstr "pending"))) ∧
    (validateId (some idStr) = none →
      (Db.readFile fs "orders.json").find? (Db.matchId idStr) = none →
      (apiHandle fs (cancelReq idStr q b hdrs) now).1.status = 404) ∧
    (∀ ord, validateId (some idStr) = none →
      (Db.readFile fs "orders.json").find? (Db.matchId idStr) = some ord →
      ord.getF "status" ≠ some (.vstr "pending") →
      (apiHandle fs (cancelReq idStr q b hdrs) now).1.status = 400) ∧
    (∀ i ord, validateId (some idStr) = none →
      (Db.readFile fs "orders.json").findIdx? (Db.matchId idStr) = some i →
      (Db.readFile fs "orders.json").get? i = some ord →
      ord.getF "status" = some (.vstr "pending") →
      ∃ r, (apiHandle fs (cancelReq idStr q b hdrs) now).1.status = 200 ∧
        (apiHandle fs (cancelReq idStr q b hdrs) now).2 =
          Db.writeFile fs "orders.json" ((Db.readFile fs "orders.json").set i r) ∧
        r.getF "status" = some (.vstr "cancelled") ∧
        r.getF "updatedAt" = some (.vstr now) ∧
        (∀ k, k ≠ "status" → k ≠ "updatedAt" → r.getF k = ord.getF k) ∧
        (∀ j, j ≠ i → ((Db.readFile fs "orders.json").set i r).get? j =
          (Db.readFile fs "orders.json").get? j)) := by
  have hroute : apiHandle fs (cancelReq idStr q b hdrs) now =
      withValidateId idStr fs (fun _ => ordersCancel fs idStr now) := rfl
  rw [hroute]
  cases hv : validateId (some idStr) with
  | some err =>
    refine ⟨?_, ?_, ?_, ?_, ?_⟩
    · intro _
      simp [withValidateId, hv]
    · intro hnone; exact Option.noConfusion hnone
    · intro hnone; exact Option.noConfusion hnone
    · intro ord hnone; exact Option.noConfusion hnone
    · intro i ord hnone; exact Option.noConfusion hnone
  | none =>
    have hw : withValidateId idStr fs (fun _ => ordersCancel fs idStr now) =
        ordersCancel fs idStr now := by
      simp [withValidateId, hv]
    rw [hw]
    cases hfind : (Db.readFile fs "orders.json").find? (Db.matchId idStr) with
    | none =>
      have hcase : ordersCancel fs idStr now =
          ({ status := 404, body := Resp.error "Order not found" 404 .vnull now }, fs) := by
        simp [ordersCancel, Db.getById, hfind]
      rw [hcase]
      refine ⟨fun _ => rfl, ?_, fun _ _ => rfl, ?_, ?_⟩
      · intro _
        constructor
        · intro h; simp at h
        · rintro ⟨ord, hord, _⟩
          exact Option.noConfusion hord
      · intro ord _ hord
        exact Option.noConfusion hord
      · intro i ord _ hidx hget _
        have hbind := find?_eq_findIdx?_get? (Db.matchId idStr) (Db.readFile fs "orders.json")
        rw [hfind, hidx] at hbind
        have hbind2 : (none : Option Value) = (Db.readFile fs "orders.json").get? i := hbind
        rw [hget] at hbind2
        exact Option.noConfusion hbind2
    | some ord =>
      have hmatch : Db.matchId idStr ord = true := List.find?_some hfind
      obtain ⟨o, ho⟩ := matchId_vobj idStr ord hmatch
      cases hst : (match ord.getF "status" with
          | some v => jsStrictEq v (.vstr "pending")
          | none => false) with
      | false =>
        have hnp : ord.getF "status" ≠ some (.vstr "pending") := by
          intro hc
          rw [hc] at hst
          simp [jsStrictEq] at hst
        have hcase : ordersCancel fs idStr now =
            ({ status := 400,
               body := Resp.error "Only pending orders can be cancelled" 400 .vnull now },
             fs) := by
          simp [ordersCancel, Db.getById, hfind, hst]
        rw [hcase]
        refine ⟨fun _ => rfl, ?_, ?_, fun _ _ _ _ => rfl, ?_⟩
        · intro _
          constructor
          · intro h; simp at h
          · rintro ⟨ord2, hord2, hp2⟩
            cases hord2
            exact absurd hp2 hnp
        · intro _ hnone
          exact Option.noConfusion hnone
        · intro i ord2 _ hidx hget hp2
          have hbind := find?_eq_findIdx?_get? (Db.matchId idStr) (Db.readFile fs "orders.json")
          rw [hfind, hidx] at hbind
          have hbind2 : (some ord : Option Value) = (Db.readFile fs "orders.json").get? i := hbind
          rw [hget] at hbind2
          cases hbind2
          exact absurd hp2 hnp
      | true =>
        have hpend : ord.getF "status" = some (.vstr "pending") := by
          cases hgf : ord.getF "status" with
          | none => rw [hgf] at hst; cases hst
          | some v =>
            rw [hgf] at hst
            rw [jsStrictEq_vstr v "pending" hst]
        have hcase : ordersCancel fs idStr now =
            (let updated := Db.update fs "orders.json" idStr [("status", .vstr "cancelled")] now
             ({ status := 200,
                body := Resp.success ((updated.1).getD .vnull)
                  "Order cancelled successfully" 200 now }, updated.2)) := by
          simp [ordersCancel, Db.getById, hfind, hst]
        rw [hcase]
        refine ⟨?_, ?_, ?_, ?_, ?_⟩
        · intro hne
          exact absurd rfl hne
        · intro _
          exact ⟨fun _ => ⟨ord, rfl, hpend⟩, fun _ => rfl⟩
        · intro _ hnone
          exact Option.noConfusion hnone
        · intro ord2 _ hord2 hnp2
          cases hord2
          exact absurd hpend hnp2
        · intro i ord2 _ hidx hget _
          have hbind := find?_eq_findIdx?_get? (Db.matchId idStr) (Db.readFile fs "orders.json")
          rw [hfind, hidx] at hbind
          have hbind2 : (some ord : Option Value) = (Db.readFile fs "orders.json").get? i := hbind
          rw [hget] at hbind2
          cases hbind2
          have hget2 : (Db.readFile fs "orders.json").get? i = some ord := hget
          have hget' : (Db.readFile fs "orders.json")[i]? = some ord := by
            rw [← List.get?_eq_getElem?]; exact hget2
          have hud : Db.update fs "orders.json" idStr [("status", .vstr "cancelled")] now =
              (some (Value.vobj
                (Obj.set (Obj.setOpt (Obj.setOpt
                  (Obj.mergeList ord.fields [("status", .vstr "cancelled")]) "id"
                  (ord.getF "id")) "createdAt" (ord.getF "createdAt")) "updatedAt"
                  (.vstr now))),
               Db.writeFile fs "orders.json" ((Db.readFile fs "orders.json").set i
                (Value.vobj
                  (Obj.set (Obj.setOpt (Obj.setOpt
                    (Obj.mergeList ord.fields [("status", .vstr "cancelled")]) "id"
                    (ord.getF "id")) "createdAt" (ord.getF "createdAt")) "updatedAt"
                    (.vstr now))))) := by
            simp [Db.update, hidx, hget']
          refine ⟨_, rfl, by rw [hud], ?_, ?_, ?_, ?_⟩
          · simp only [Value.getF]
            rw [Obj.get_set_ne _ _ _ _ (by decide), Obj.get_setOpt_ne _ _ _ _ (by decide),
              Obj.get_setOpt_ne _ _ _ _ (by decide)]
            show Obj.get (Obj.mergeList ord.fields [("status", .vstr "cancelled")]) "status" = _
            show Obj.get (Obj.set ord.fields "status" (.vstr "cancelled")) "status" = _
            rw [Obj.get_set_self]
          · simp only [Value.getF]
            rw [Obj.get_set_self]
          · intro k hks hku
            simp only [Value.getF]
            rw [Obj.get_set_ne _ _ _ _ hku]
            by_cases hkc : k = "createdAt"
            · rw [hkc, Obj.get_setOpt_self, ho]
            · rw [Obj.get_setOpt_ne _ _ _ _ hkc]
              by_cases hki : k = "id"
              · rw [hki, Obj.get_setOpt_self, ho]
              · rw [Obj.get_setOpt_ne _ _ _ _ hki]
                show Obj.get (Obj.set ord.fields "status" (.vstr "cancelled")) k = _
                rw [Obj.get_set_ne _ _ _ _ hks, ho]
                rfl
          · intro j hj
            exact List.get?_set_ne _ _ (Ne.symm hj)

/-- A store with one pending order, for the C9 witness. -/
def wordersFS : FS := fun n =>
  if n = "orders.json" then
    some [Value.vobj [("id", .vnum 1), ("status", .vstr "pending"), ("userId", .vnum 7)]]
  else none

/-- Witness for C9: cancelling pending order 1 succeeds, rewrites exactly
that order to cancelled, and preserves its other fields. -/
theorem cancel_route_witness :
    ∃ r, (apiHandle wordersFS (cancelReq "1" [] [] []) "T").1.status = 200 ∧
      (apiHandle wordersFS (cancelReq "1" [] [] []) "T").2 =
        Db.writeFile wordersFS "orders.json" ((Db.readFile wordersFS "orders.json").set 0 r) ∧
      r.getF "status" = some (.vstr "cancelled") ∧
      r.getF "updatedAt" = some (.vstr "T") ∧
      (∀ k, k ≠ "status" → k ≠ "updatedAt" →
        r.getF k = (Value.vobj [("id", .vnum 1), ("status", .vstr "pending"),
          ("userId", .vnum 7)]).getF k) ∧
      (∀ j, j ≠ 0 → ((Db.readFile wordersFS "orders.json").set 0 r).get? j =
        (Db.readFile wordersFS "orders.json").get? j) :=
  (cancel_route wordersFS "1" [] [] [] "T").2.2.2.2 0
    (Value.vobj [("id", .vnum 1), ("status", .vstr "pending"), ("userId", .vnum 7)])
    (by with_unfolding_all rfl) (by with_unfolding_all rfl)
    (by with_unfolding_all rfl) (by with_unfolding_all rfl)

/-- The numeric id a record exposes, for stating id uniqueness. -/
def idOf (item : Value) : Option ℚ :=
  match item.getF "id" with
  | some (.vnum p) => some p
  | _ => none

/-- A one-record store whose only id is 1, for the C7 counterexample. -/
def cexFS : FS := fun n =>
  if n = "t.json" then some [Value.vobj [("id", Value.vnum 1)]] else none

/-- Counterexample to C7 as stated: because `{ id, ...newRecord, ... }`
spreads `newRecord` after the generated id, a newRecord carrying an `id`
field overrides it; creating `{id: 1}` in a file whose record already has
id 1 yields a record with id 1, not an id strictly greater than every
existing id. -/
theorem create_id_monotone_cex :
    ¬ (∀ q : ℚ,
        ((Db.create cexFS "t.json" [("id", Value.vnum 1)] "T").1).getF "id" =
            some (.vnum q) →
        ∀ item ∈ Db.readFile cexFS "t.json", ∀ p : ℚ,
          item.getF "id" = some (.vnum p) → p < q) := by
  intro h
  have hh : Db.readFile cexFS "t.json" = [Value.vobj [("id", Value.vnum 1)]] := by
    with_unfolding_all rfl
  have hmem : Value.vobj [("id", Value.vnum 1)] ∈ Db.readFile cexFS "t.json" := by
    rw [hh]; exact List.Mem.head _
  have h1 := h 1 (by with_unfolding_all rfl) (Value.vobj [("id", Value.vnum 1)]) hmem 1
    (by with_unfolding_all rfl)
  exact absurd h1 (by norm_num)

theorem foldl_jsMax_spec (xs : List (Option ℚ)) (a : ℚ)
    (hall : ∀ x ∈ xs, ∃ q, x = some q) :
    ∃ M, xs.foldl (fun acc y =>
        match acc, y with
        | some a, some b => some (max a b)
        | _, _ => none) (some a) = some M ∧ a ≤ M ∧ ∀ q : ℚ, some q ∈ xs → q ≤ M := by
  induction xs generalizing a with
  | nil => exact ⟨a, rfl, le_refl a, by intro q hq; cases hq⟩
  | cons x t ih =>
    obtain ⟨b, hb⟩ := hall x (List.Mem.head _)
    subst hb
    obtain ⟨M, hM, hle, hmem⟩ := ih (max a b) (fun y hy => hall y (List.mem_cons_of_mem _ hy))
    refine ⟨M, hM, le_trans (le_max_left a b) hle, ?_⟩
    intro q hq
    rcases List.mem_cons.mp hq with hq | hq
    · have : q = b := by injection hq
      rw [this]
      exact le_trans (le_max_right a b) hle
    · exact hmem q hq

theorem jsMaxList_spec (l : List (Option ℚ)) (hne : l ≠ [])
    (hall : ∀ x ∈ l, ∃ q, x = some q) :
    ∃ M, Db.jsMaxList l = some M ∧ ∀ q : ℚ, some q ∈ l → q ≤ M := by
  cases l with
  | nil => exact absurd rfl hne
  | cons x t =>
    obtain ⟨a, ha⟩ := hall x (List.Mem.head _)
    subst ha
    obtain ⟨M, hM, hle, hmem⟩ :=
      foldl_jsMax_spec t a (fun y hy => hall y (List.mem_cons_of_mem _ hy))
    refine ⟨M, hM, ?_⟩
    intro q hq
    rcases List.mem_cons.mp hq with hq | hq
    · have hqa : q = a := by injection hq
      rw [hqa]
      exact hle
    · exact hmem q hq

theorem mkRecord_getF_id (data : List Value) (newRecord : List (String × Value))
    (now : String) (hnew : newRecord.lookup "id" = none) :
    (Db.mkRecord data newRecord now).getF "id" =
      some (if data.length > 0 then
        match Db.jsMaxList (data.map (fun item => jsToNumber (Db.idOrZero item))) with
        | some m => Value.vnum (m + 1)
        | none => Value.vnan
      else Value.vnum 1) := by
  simp only [Db.mkRecord, Value.getF]
  rw [Obj.get_set_ne _ _ _ _ (by decide), Obj.get_set_ne _ _ _ _ (by decide),
    Obj.get_mergeList_not_mem _ _ _ hnew]
  rfl

/-- Amended C7: when newRecord carries no id field and every id present in
the stored array is a number, create assigns the new record id 1 on an empty
array and otherwise an id strictly greater than every stored numeric id
(records lacking an id, or with a falsy one, counting as 0); consequently
pairwise-distinct ids stay pairwise distinct. -/
theorem create_id_monotone (fs : FS) (name : String)
    (newRecord : List (String × Value)) (now : String)
    (hnew : newRecord.lookup "id" = none)
    (hids : ∀ item ∈ Db.readFile fs name, ∀ v, item.getF "id" = some v →
      ∃ p : ℚ, v = .vnum p) :
    ∃ q : ℚ, ((Db.create fs name newRecord now).1).getF "id" = some (.vnum q) ∧
      (Db.readFile fs name = [] → q = 1) ∧
      (∀ item ∈ Db.readFile fs name, ∀ p : ℚ,
        item.getF "id" = some (.vnum p) → p < q) ∧
      (((Db.readFile fs name).filterMap idOf).Pairwise (· ≠ ·) →
        ((Db.readFile (Db.create fs name newRecord now).2 name).filterMap idOf).Pairwise
          (· ≠ ·)) := by
  have hc1 : (Db.create fs name newRecord now).1 =
      Db.mkRecord (Db.readFile fs name) newRecord now := rfl
  have hafter : Db.readFile (Db.create fs name newRecord now).2 name =
      Db.readFile fs name ++ [(Db.create fs name newRecord now).1] := by
    show Db.readFile (Db.writeFile fs name _) name = _
    rw [Db.readFile_writeFile_self, hc1]
  have hval : ∀ item ∈ Db.readFile fs name, ∀ p : ℚ,
      item.getF "id" = some (.vnum p) →
      jsToNumber (Db.idOrZero item) = some p := by
    intro item hm p hp
    unfold Db.idOrZero
    rw [hp]
    by_cases hz : p = 0
    · subst hz
      simp [Value.truthy, jsToNumber]
    · simp [Value.truthy, hz, jsToNumber]
  cases hdata : Db.readFile fs name with
  | nil =>
    refine ⟨1, ?_, fun _ => rfl, ?_, ?_⟩
    · rw [hc1, hdata, mkRecord_getF_id _ _ _ hnew]
      simp
    · intro item hitem
      cases hitem
    · intro _
      rw [hafter, hdata]
      simp only [List.nil_append]
      cases h : idOf ((Db.create fs name newRecord now).1) with
      | none => simp [List.filterMap_cons, h]
      | some z => simp [List.filterMap_cons, h]
  | cons x xs =>
    have hsome : ∀ y ∈ (x :: xs).map (fun item => jsToNumber (Db.idOrZero item)),
        ∃ qq : ℚ, y = some qq := by
      intro y hy
      obtain ⟨item, hitem, hfy⟩ := List.mem_map.mp hy
      have hmem' : item ∈ Db.readFile fs name := by rw [hdata]; exact hitem
      cases hgf : item.getF "id" with
      | none =>
        refine ⟨0, ?_⟩
        rw [← hfy]
        unfold Db.idOrZero
        rw [hgf]
        rfl
      | some v =>
        obtain ⟨p, hp⟩ := hids item hmem' v hgf
        subst hp
        exact ⟨p, by rw [← hfy]; exact hval item hmem' p hgf⟩
    have hne : (x :: xs).map (fun item => jsToNumber (Db.idOrZero item)) ≠ [] := by simp
    obtain ⟨M, hM, hle⟩ := jsMaxList_spec _ hne hsome
    have hgid : ((Db.create fs name newRecord now).1).getF "id" =
        some (.vnum (M + 1)) := by
      rw [hc1, hdata, mkRecord_getF_id _ _ _ hnew,
        if_pos (show (x :: xs).length > 0 by simp), hM]
    refine ⟨M + 1, hgid, ?_, ?_, ?_⟩
    · intro h0; cases h0
    · intro item hitem p hp
      have hnum := hval item (by rw [hdata]; exact hitem) p hp
      have hmm : some p ∈ (x :: xs).map (fun item => jsToNumber (Db.idOrZero item)) := by
        rw [← hnum]; exact List.mem_map_of_mem _ hitem
      have := hle p hmm
      linarith
    · intro hpw
      rw [hafter, hdata, List.filterMap_append]
      have hrecid : idOf ((Db.create fs name newRecord now).1) = some (M + 1) := by
        unfold idOf
        rw [hgid]
      rw [show ([(Db.create fs name newRecord now).1]).filterMap idOf = [M + 1] from by
        simp [List.filterMap_cons, hrecid]]
      rw [List.pairwise_append]
      refine ⟨hpw, by simp, ?_⟩
      intro a ha b hb
      have hb' : b = M + 1 := List.mem_singleton.mp hb
      obtain ⟨item, hitem, hida⟩ := List.mem_filterMap.mp ha
      have hgf : item.getF "id" = some (.vnum a) := by
        unfold idOf at hida
        cases hgf : item.getF "id" with
        | none => rw [hgf] at hida; cases hida
        | some v =>
          rw [hgf] at hida
          cases v with
          | vnum p =>
            have hpa : p = a := by injection hida
            rw [hpa]
          | vnull => cases hida
          | vbool bb => cases hida
          | vnan => cases hida
          | vstr ss => cases hida
          | varr la => cases hida
          | vobj oo => cases hida
      have hnum := hval item (by rw [hdata]; exact hitem) a hgf
      have hmm : some a ∈ (x :: xs).map (fun item => jsToNumber (Db.idOrZero item)) := by
        rw [← hnum]; exact List.mem_map_of_mem _ hitem
      have hAle := hle a hmm
      rw [hb']
      intro heq
      rw [heq] at hAle
      linarith

/-- A one-record store with numeric id 2, for the amended C7 witness. -/
def amFS : FS := fun n =>
  if n = "t.json" then some [Value.vobj [("id", Value.vnum 2)]] else none

/-- Witness for the amended C7: creating a record without an id next to a
stored id 2 yields an id strictly greater than 2 and keeps ids distinct. -/
theorem create_id_monotone_witness :
    ∃ q : ℚ, ((Db.create amFS "t.json" [("name", Value.vstr "a")] "T").1).getF "id" =
        some (.vnum q) ∧
      (Db.readFile amFS "t.json" = [] → q = 1) ∧
      (∀ item ∈ Db.readFile amFS "t.json", ∀ p : ℚ,
        item.getF "id" = some (.vnum p) → p < q) ∧
      (((Db.readFile amFS "t.json").filterMap idOf).Pairwise (· ≠ ·) →
        ((Db.readFile (Db.create amFS "t.json" [("name", Value.vstr "a")] "T").2
          "t.json").filterMap idOf).Pairwise (· ≠ ·)) :=
  create_id_monotone amFS "t.json" [("name", Value.vstr "a")] "T"
    (by with_unfolding_all rfl)
    (by
      intro item hm v hv
      have hh : Db.readFile amFS "t.json" = [Value.vobj [("id", Value.vnum 2)]] := by
        with_unfolding_all rfl
      rw [hh] at hm
      have hitem := List.mem_singleton.mp hm
      subst hitem
      have h2 : (some (Value.vnum 2) : Option Value) = some v := by
        rw [← hv]; with_unfolding_all rfl
      have h3 : Value.vnum 2 = v := by injection h2
      exact ⟨2, h3.symm⟩)
